import Mathlib

/-!
# ncmctl `partner` command: the daily evaluation run

Shallow embedding of `internal/ncmctl/partner.go`
(`Partner.validate`, `Partner.execute`, `Partner.do`).

The remote service and the random source are an explicit environment
(`Remote`): every call the run makes is answered by the environment, and the
run returns the list of calls it issued (its trace) together with its result.
A Go `error` return is `Outcome.error`, a Go runtime panic is `Outcome.panic`.
-/

namespace Ncmctl

/-! ## Machine integers and the random source -/

/-- Go conversion `int32(n)` of an integer: wrap into the signed 32-bit range. -/
def int32 (n : Int) : Int := (2147483648 + n) % 4294967296 - 2147483648

/-- Go `rand.Int31n(n)`: panics (`none`) when `n <= 0`, otherwise a value in `[0, n)`.
`raw` is the raw value supplied by the random source for this draw. -/
def Int31n (raw : Nat) (n : Int) : Option Int :=
  if n ≤ 0 then none else some ((raw : Int) % n)

/-! ## Data model -/

/-- Command options: `PartnerOpts.Star` is the `--star` flag, a slice of int64. -/
structure PartnerOpts where
  Star : List Int
deriving DecidableEq, Repr

/-- The errors `Partner.execute` can return, one per `fmt.Errorf` site. -/
inductive RunError where
  /-- Returned by validate: "star level must be range 1-5". -/
  | starRange
  /-- Returned by validate: "star level must be unique". -/
  | starUnique
  /-- The client could not be created ("NewClient: ..."). -/
  | newClient
  /-- The session is not logged in ("need login"). -/
  | needLogin
  /-- The status query itself failed ("PartnerUserinfo: ..."). -/
  | partnerUserinfo
  /-- Status code 703: not a music partner. -/
  | notPartner
  /-- Status code other than 200 and 703 ("PartnerUserinfo err: ..."). -/
  | userinfoCode (code : Int)
  /-- Status "ELIMINATED": no evaluation qualification. -/
  | eliminated
  /-- The daily batch fetch failed ("PartnerDailyTask: ..."). -/
  | partnerDailyTask
  /-- An evaluate call failed ("PartnerEvaluate: ..."). -/
  | partnerEvaluate
  /-- The extra batch fetch failed ("PartnerExtraTask: ..."). -/
  | partnerExtraTask
  /-- A report call failed ("PartnerExtraReport: ..."). -/
  | partnerExtraReport
deriving DecidableEq, Repr

/-- Result of a run: `nil`, a returned error, or a runtime panic. -/
inductive Outcome where
  | ok
  | error (e : RunError)
  | panic
deriving DecidableEq, Repr

/-- Answer of `PartnerUserinfo`: `info.Code` and `info.Data.Status`. -/
structure PartnerUserinfoResp where
  Code : Int
  Status : String
deriving DecidableEq, Repr

/-- The `Work` field of a task item: `work.Work.Id`, `work.Work.ResourceId`. -/
structure Work where
  Id : Int
  ResourceId : Int
deriving DecidableEq, Repr

/-- One task item: `work.Completed` and `work.Work`. -/
structure PartnerWork where
  Completed : Bool
  Work : Work
deriving DecidableEq, Repr

/-- Answer of `PartnerDailyTask`: `task.Data.Id` and `task.Data.Works`. -/
structure PartnerTaskData where
  Id : Int
  Works : List PartnerWork
deriving DecidableEq, Repr

/-- Request of `PartnerEvaluate` as built in both loops. -/
structure PartnerEvaluateReq where
  TaskId : Int
  WorkId : Int
  Score : Int
  Tags : String
  CustomTags : String
  Comment : String
  SyncYunCircle : Bool
  SyncComment : Bool
  Source : String
  ExtraResource : Bool
deriving DecidableEq, Repr

/-- Request of `PartnerExtraReport` as built in the extra loop. -/
structure PartnerExtraReportReq where
  WorkId : Int
  ResourceId : Int
  BizResourceId : String
  InteractType : String
deriving DecidableEq, Repr

/-- One observable action of the run, with the answer it received.
For the remote calls the answer `none` is the Go call returning `err != nil`;
`some code` is the response code. -/
inductive Event where
  | newClient (ok : Bool)
  | close
  | needLogin (need : Bool)
  | partnerUserinfo (resp : Option PartnerUserinfoResp)
  | partnerDailyTask (resp : Option PartnerTaskData)
  | sleep (seconds : Int)
  | partnerEvaluate (req : PartnerEvaluateReq) (resp : Option Int)
  | partnerExtraTask (resp : Option (List PartnerWork))
  | partnerExtraReport (req : PartnerExtraReportReq) (resp : Option Int)
  | tokenRefresh (resp : Option Int)
deriving DecidableEq, Repr

/-- The environment of one run: what every remote call answers and what the
random source yields. `partnerEvaluate k` answers the `k`-th `PartnerEvaluate`
call of the run (counted from 0), `partnerExtraReport k` the `k`-th
`PartnerExtraReport` call, `rand k` is the raw value behind the `k`-th
`rand.Int31n` draw. -/
structure Remote where
  newClient : Bool
  needLogin : Bool
  partnerUserinfo : Option PartnerUserinfoResp
  partnerDailyTask : Option PartnerTaskData
  partnerExtraTask : Option (List PartnerWork)
  partnerEvaluate : Nat → Option Int
  partnerExtraReport : Nat → Option Int
  tokenRefresh : Option Int
  rand : Nat → Nat

/-- How many draws, evaluate calls and report calls the run has made so far. -/
structure Cursor where
  rand : Nat
  evaluate : Nat
  report : Nat
deriving DecidableEq, Repr

/-- Control flow out of a loop body or a loop: go on (`next`), leave the loop
through `goto end` (`stop`), `return` an error (`fail`), or panic. -/
inductive Flow (σ : Type) where
  | next (s : σ)
  | stop (s : σ)
  | fail (e : RunError)
  | panic
deriving DecidableEq, Repr

/-- Loop state of the extra batch: the cursor and the remaining quota `extraNum`. -/
structure ExtraState where
  cur : Cursor
  extraNum : Int
deriving DecidableEq, Repr

/-! ## `Partner.validate` -/

/-- Modelled from the spec: `utils.IsUnique` (package `pkg/utils`, not part of the
sources at hand) is true exactly for duplicate-free slices. -/
def IsUnique (xs : List Int) : Bool := decide xs.Nodup

/-- The method `Partner.validate`: `none` is `nil`, `some e` the returned error. -/
def Partner.validate (opts : PartnerOpts) : Option RunError :=
  if opts.Star.length = 0 ∨ opts.Star.length > 5 then
    some RunError.starRange
  else if !IsUnique opts.Star then
    some RunError.starUnique
  else
    none

/-! ## The loop bodies of `Partner.do` -/

/-- The pacing delay in seconds: `15 + int(rand.Int31n(10))`. -/
def pacingDelay (raw : Nat) : Option Int :=
  match Int31n raw 10 with
  | none => none
  | some d => some (15 + d)

/-- The rating and tag draw, written out identically in both loops:
`star := c.opts.Star[rand.Int31n(int32(len(c.opts.Star)))]`,
`group := weapi.PartnerTagsGroup[star]`,
`tags := group[rand.Int31n(int32(len(group)))]`.
`tagsGroup` is the table `weapi.PartnerTagsGroup` (a Go map: a missing key yields
the empty slice). `none` is a panic (`Int31n` on a non-positive bound, or an
index out of range). The two draws use the raw values `k` and `k + 1`. -/
def pickStarTags (tagsGroup : Int → List String) (env : Remote) (opts : PartnerOpts)
    (k : Nat) : Option (Int × String) :=
  match Int31n (env.rand k) (int32 opts.Star.length) with
  | none => none
  | some i =>
    match opts.Star.get? i.toNat with
    | none => none
    | some star =>
      let group := tagsGroup star
      match Int31n (env.rand (k + 1)) (int32 group.length) with
      | none => none
      | some j =>
        match group.get? j.toNat with
        | none => none
        | some tags => some (star, tags)

/-- Body of the daily loop (`for _, work := range task.Data.Works`). -/
def dailyStep (tagsGroup : Int → List String) (env : Remote) (opts : PartnerOpts)
    (taskId : Int) (c : Cursor) (work : PartnerWork) : List Event × Flow Cursor :=
  if work.Completed then
    ([], Flow.next c)
  else
    match pacingDelay (env.rand c.rand) with
    | none => ([], Flow.panic)
    | some d =>
      match pickStarTags tagsGroup env opts (c.rand + 1) with
      | none => ([Event.sleep d], Flow.panic)
      | some (star, tags) =>
        let req : PartnerEvaluateReq :=
          { TaskId := taskId, WorkId := work.Work.Id, Score := star, Tags := tags,
            CustomTags := "[]", Comment := "", SyncYunCircle := false,
            SyncComment := true, Source := "mp-music-partner", ExtraResource := false }
        let c1 : Cursor :=
          { rand := c.rand + 3, evaluate := c.evaluate + 1, report := c.report }
        match env.partnerEvaluate c.evaluate with
        | none => ([Event.sleep d, Event.partnerEvaluate req none], Flow.fail RunError.partnerEvaluate)
        | some code =>
          let t := [Event.sleep d, Event.partnerEvaluate req (some code)]
          if code = 200 then (t, Flow.next c1)        -- ok
          else if code = 405 then (t, Flow.next c1)   -- already evaluated
          else (t, Flow.next c1)                      -- log.Error only

/-- The daily loop over `task.Data.Works`. -/
def dailyLoop (tagsGroup : Int → List String) (env : Remote) (opts : PartnerOpts)
    (taskId : Int) : Cursor → List PartnerWork → List Event × Flow Cursor
  | c, [] => ([], Flow.next c)
  | c, work :: rest =>
    match dailyStep tagsGroup env opts taskId c work with
    | (t, Flow.next c1) =>
      let r := dailyLoop tagsGroup env opts taskId c1 rest
      (t ++ r.1, r.2)
    | (t, f) => (t, f)

/-- Body of the extra loop (`for _, work := range extraTask.Data`). -/
def extraStep (tagsGroup : Int → List String) (env : Remote) (opts : PartnerOpts)
    (taskId : Int) (s : ExtraState) (work : PartnerWork) : List Event × Flow ExtraState :=
  if work.Completed then
    ([], Flow.next s)
  else
    match pacingDelay (env.rand s.cur.rand) with
    | none => ([], Flow.panic)
    | some d =>
      match pickStarTags tagsGroup env opts (s.cur.rand + 1) with
      | none => ([Event.sleep d], Flow.panic)
      | some (star, tags) =>
        let req : PartnerExtraReportReq :=
          { WorkId := work.Work.Id, ResourceId := work.Work.ResourceId,
            BizResourceId := "", InteractType := "PLAY_END" }
        match env.partnerExtraReport s.cur.report with
        | none =>
          ([Event.sleep d, Event.partnerExtraReport req none],
            Flow.fail RunError.partnerExtraReport)
        | some code =>
          let c1 : Cursor :=
            { rand := s.cur.rand + 3, evaluate := s.cur.evaluate, report := s.cur.report + 1 }
          if code ≠ 200 then
            -- default: log.Error, continue
            ([Event.sleep d, Event.partnerExtraReport req (some code)],
              Flow.next { cur := c1, extraNum := s.extraNum })
          else
            let evaluateReq : PartnerEvaluateReq :=
              { TaskId := taskId, WorkId := work.Work.Id, Score := star, Tags := tags,
                CustomTags := "[]", Comment := "", SyncYunCircle := false,
                SyncComment := true, Source := "mp-music-partner", ExtraResource := true }
            let c2 : Cursor :=
              { rand := c1.rand, evaluate := c1.evaluate + 1, report := c1.report }
            match env.partnerEvaluate s.cur.evaluate with
            | none =>
              ([Event.sleep d, Event.partnerExtraReport req (some code),
                Event.partnerEvaluate evaluateReq none],
                Flow.fail RunError.partnerEvaluate)
            | some ecode =>
              let t := [Event.sleep d, Event.partnerExtraReport req (some code),
                Event.partnerEvaluate evaluateReq (some ecode)]
              if ecode = 200 then
                -- extraNum--; if extraNum <= 0 { goto end }
                let n := int32 (s.extraNum - 1)
                if n ≤ 0 then (t, Flow.stop { cur := c2, extraNum := n })
                else (t, Flow.next { cur := c2, extraNum := n })
              else if ecode = 405 then (t, Flow.next { cur := c2, extraNum := s.extraNum })
              else (t, Flow.next { cur := c2, extraNum := s.extraNum })

/-- The extra loop over `extraTask.Data`. -/
def extraLoop (tagsGroup : Int → List String) (env : Remote) (opts : PartnerOpts)
    (taskId : Int) : ExtraState → List PartnerWork → List Event × Flow ExtraState
  | s, [] => ([], Flow.next s)
  | s, work :: rest =>
    match extraStep tagsGroup env opts taskId s work with
    | (t, Flow.next s1) =>
      let r := extraLoop tagsGroup env opts taskId s1 rest
      (t ++ r.1, r.2)
    | (t, f) => (t, f)

/-! ## `Partner.do` and `Partner.execute` -/

/-- The part of `Partner.do` after the daily loop: the quota draw
(`extraNum = 2 + rand.Int31n(6)`), the extra batch fetch, the extra loop, and
after the label `end` the token refresh, whose answer is only logged. -/
def extraPhase (tagsGroup : Int → List String) (env : Remote) (opts : PartnerOpts)
    (taskId : Int) (c : Cursor) : List Event × Outcome :=
  match Int31n (env.rand c.rand) 6 with
  | none => ([], Outcome.panic)
  | some r =>
    let extraNum := int32 (2 + r)
    let c1 : Cursor := { rand := c.rand + 1, evaluate := c.evaluate, report := c.report }
    match env.partnerExtraTask with
    | none => ([Event.partnerExtraTask none], Outcome.error RunError.partnerExtraTask)
    | some extra =>
      match extraLoop tagsGroup env opts taskId { cur := c1, extraNum := extraNum } extra with
      | (t, Flow.fail e) => (Event.partnerExtraTask (some extra) :: t, Outcome.error e)
      | (t, Flow.panic) => (Event.partnerExtraTask (some extra) :: t, Outcome.panic)
      | (t, Flow.next _) | (t, Flow.stop _) =>
        (Event.partnerExtraTask (some extra) :: t ++ [Event.tokenRefresh env.tokenRefresh],
          Outcome.ok)

/-- The part of `Partner.do` after the daily batch was fetched: the daily loop,
then the extra phase with `taskId = task.Data.Id`. -/
def afterDailyFetch (tagsGroup : Int → List String) (env : Remote) (opts : PartnerOpts)
    (task : PartnerTaskData) : List Event × Outcome :=
  match dailyLoop tagsGroup env opts task.Id { rand := 0, evaluate := 0, report := 0 }
      task.Works with
  | (t, Flow.fail e) => (t, Outcome.error e)
  | (t, Flow.panic) => (t, Outcome.panic)
  | (t, Flow.next c) | (t, Flow.stop c) =>
    let r := extraPhase tagsGroup env opts task.Id c
    (t ++ r.1, r.2)

/-- The part of `Partner.do` after `defer cli.Close(ctx)` was registered. -/
def withClient (tagsGroup : Int → List String) (env : Remote) (opts : PartnerOpts) :
    List Event × Outcome :=
  if env.needLogin then
    ([Event.needLogin true], Outcome.error RunError.needLogin)
  else
    match env.partnerUserinfo with
    | none =>
      ([Event.needLogin false, Event.partnerUserinfo none], Outcome.error RunError.partnerUserinfo)
    | some info =>
      let pre := [Event.needLogin false, Event.partnerUserinfo (some info)]
      if info.Code = 703 then (pre, Outcome.error RunError.notPartner)
      else if info.Code ≠ 200 then (pre, Outcome.error (RunError.userinfoCode info.Code))
      else if info.Status = "ELIMINATED" then (pre, Outcome.error RunError.eliminated)
      else
        match env.partnerDailyTask with
        | none => (pre ++ [Event.partnerDailyTask none], Outcome.error RunError.partnerDailyTask)
        | some task =>
          let r := afterDailyFetch tagsGroup env opts task
          (pre ++ Event.partnerDailyTask (some task) :: r.1, r.2)

/-- The method `Partner.do`: create the client, run, and close the client on every exit
path after its creation (the deferred `cli.Close`). -/
def Partner.do_ (tagsGroup : Int → List String) (env : Remote) (opts : PartnerOpts) :
    List Event × Outcome :=
  if env.newClient then
    let r := withClient tagsGroup env opts
    (Event.newClient true :: r.1 ++ [Event.close], r.2)
  else
    ([Event.newClient false], Outcome.error RunError.newClient)

/-- The method `Partner.execute`: validate, then run. -/
def Partner.execute (tagsGroup : Int → List String) (env : Remote) (opts : PartnerOpts) :
    List Event × Outcome :=
  match Partner.validate opts with
  | some e => ([], Outcome.error e)
  | none => Partner.do_ tagsGroup env opts

/-! ## Observations on traces -/

/-- What an event does, forgetting the delay, the request details and the answer. -/
inductive Action where
  | delay
  | report (workId : Int)
  | evaluate (workId : Int)
  | control
deriving DecidableEq, Repr

/-- The action of an event. -/
def Event.action : Event → Action
  | Event.sleep _ => Action.delay
  | Event.partnerExtraReport req _ => Action.report req.WorkId
  | Event.partnerEvaluate req _ => Action.evaluate req.WorkId
  | _ => Action.control

/-- An evaluate call. -/
def Action.isEvaluate : Action → Bool
  | Action.evaluate _ => true
  | _ => false

/-- An evaluate call answered with code 200. -/
def Event.accepted : Event → Bool
  | Event.partnerEvaluate _ (some code) => decide (code = 200)
  | _ => false

/-- A report or evaluate call that returned an error instead of a response. -/
def Event.callFailed : Event → Bool
  | Event.partnerEvaluate _ none => true
  | Event.partnerExtraReport _ none => true
  | _ => false

/-- The error the run returns for a report or evaluate call that itself failed. -/
def Event.callError : Event → Option RunError
  | Event.partnerEvaluate _ none => some RunError.partnerEvaluate
  | Event.partnerExtraReport _ none => some RunError.partnerExtraReport
  | _ => none

/-- The delays and report calls of a trace, in order (its evaluate calls left out). -/
def visits (t : List Event) : List Action :=
  (t.map Event.action).filter (fun a => !a.isEvaluate)

/-- One delay and one evaluate call for each non-completed item, in batch order. -/
def dailyCalls (works : List PartnerWork) : List Action :=
  (works.filter (fun w => !w.Completed)).flatMap
    (fun w => [Action.delay, Action.evaluate w.Work.Id])

/-- One delay and one report call for each non-completed item, in batch order. -/
def extraVisits (works : List PartnerWork) : List Action :=
  (works.filter (fun w => !w.Completed)).flatMap
    (fun w => [Action.delay, Action.report w.Work.Id])

/-- What a daily loop started at cursor `c` can yield on `works`: either it runs to
its end, no call has failed, every non-completed item got its delay and its
evaluate call, and the cursor has advanced by three draws and one evaluate call
per such item; or it returns the evaluate error, the failed evaluate call is its
last event and the only failed one, and the items up to it were processed. -/
def DailyRun (works : List PartnerWork) (c : Cursor) (r : List Event × Flow Cursor) : Prop :=
  (r.2 = Flow.next
      { rand := c.rand + 3 * (works.filter (fun w => !w.Completed)).length,
        evaluate := c.evaluate + (works.filter (fun w => !w.Completed)).length,
        report := c.report } ∧
    (∀ ev ∈ r.1, ev.callFailed = false) ∧
    r.1.map Event.action = dailyCalls works) ∨
  (r.2 = Flow.fail RunError.partnerEvaluate ∧
    ∃ pre req n, r.1 = pre ++ [Event.partnerEvaluate req none] ∧
      (∀ ev ∈ pre, ev.callFailed = false) ∧
      r.1.map Event.action = dailyCalls (works.take n))

/-- What an extra loop started with quota `q` can yield on `works`: it runs to its
end with fewer than `q` evaluate answers 200 and every non-completed item
visited; or it leaves through `goto end` right after the `q`-th evaluate answer
200, having visited the items up to there; or it returns the error of a failed
report or evaluate call, which is its last event and the only failed one. -/
def ExtraRun (works : List PartnerWork) (q : Int) (r : List Event × Flow ExtraState) : Prop :=
  (∃ s1, r.2 = Flow.next s1 ∧ 1 ≤ s1.extraNum ∧
    ((r.1.countP Event.accepted : Nat) : Int) + s1.extraNum = q ∧
    (∀ ev ∈ r.1, ev.callFailed = false) ∧
    visits r.1 = extraVisits works) ∨
  (∃ s1 pre req n, r.2 = Flow.stop s1 ∧
    ((r.1.countP Event.accepted : Nat) : Int) = q ∧
    r.1 = pre ++ [Event.partnerEvaluate req (some 200)] ∧
    (∀ ev ∈ r.1, ev.callFailed = false) ∧
    visits r.1 = extraVisits (works.take n)) ∨
  (∃ e pre ev n, r.2 = Flow.fail e ∧ r.1 = pre ++ [ev] ∧ ev.callError = some e ∧
    (∀ x ∈ pre, x.callFailed = false) ∧
    ((r.1.countP Event.accepted : Nat) : Int) < q ∧
    visits r.1 = extraVisits (works.take n))

/-- Every evaluate call of the trace comes right after a report call for the same
work id that was answered 200. -/
def EvaluateFollowsReport (t : List Event) : Prop :=
  ∀ pre ereq r post, t = pre ++ Event.partnerEvaluate ereq r :: post →
    ∃ pre1 rreq, pre = pre1 ++ [Event.partnerExtraReport rreq (some 200)] ∧
      rreq.WorkId = ereq.WorkId

/-- The result of the run when a loop ends with this flow and nothing fails later. -/
def Flow.outcome {σ : Type} : Flow σ → Outcome
  | Flow.next _ => Outcome.ok
  | Flow.stop _ => Outcome.ok
  | Flow.fail e => Outcome.error e
  | Flow.panic => Outcome.panic

/-- The loop ended by running to its end or through `goto end`. -/
def Flow.finished {σ : Type} : Flow σ → Bool
  | Flow.next _ => true
  | Flow.stop _ => true
  | _ => false

/-- Every report call of the trace that was answered 200 is followed at once by an
evaluate call for the same work id. -/
def ReportFollowedByEvaluate (t : List Event) : Prop :=
  ∀ pre rreq post, t = pre ++ Event.partnerExtraReport rreq (some 200) :: post →
    ∃ ereq r post1, post = Event.partnerEvaluate ereq r :: post1 ∧
      ereq.WorkId = rreq.WorkId

/-- The answers the evaluate calls of a trace received, in order. -/
def evaluateAnswers (t : List Event) : List (Option Int) :=
  t.filterMap (fun ev => match ev with
    | Event.partnerEvaluate _ r => some r
    | _ => none)

/-- The answers the report calls of a trace received, in order. -/
def reportAnswers (t : List Event) : List (Option Int) :=
  t.filterMap (fun ev => match ev with
    | Event.partnerExtraReport _ r => some r
    | _ => none)

/-! ## Loop states after one item -/

/-- The cursor after a visited daily item: three draws and one evaluate call. -/
def Cursor.afterDaily (c : Cursor) : Cursor :=
  { rand := c.rand + 3, evaluate := c.evaluate + 1, report := c.report }

/-- The cursor after an extra item whose report was not answered 200. -/
def Cursor.afterReport (c : Cursor) : Cursor :=
  { rand := c.rand + 3, evaluate := c.evaluate, report := c.report + 1 }

/-- The cursor after an extra item that was reported and evaluated. -/
def Cursor.afterExtra (c : Cursor) : Cursor :=
  { rand := c.rand + 3, evaluate := c.evaluate + 1, report := c.report + 1 }

/-- The flow after an answered evaluate call of the extra loop. -/
def extraFlow (s : ExtraState) (ecode : Int) : Flow ExtraState :=
  if ecode = 200 then
    if int32 (s.extraNum - 1) ≤ 0 then
      Flow.stop { cur := s.cur.afterExtra, extraNum := int32 (s.extraNum - 1) }
    else Flow.next { cur := s.cur.afterExtra, extraNum := int32 (s.extraNum - 1) }
  else Flow.next { cur := s.cur.afterExtra, extraNum := s.extraNum }

/-- The state in which the extra loop starts when the daily loop ended at cursor `c`:
one more draw was made, and the quota is `2 + rand.Int31n(6)`. -/
def extraStart (env : Remote) (c : Cursor) : ExtraState :=
  { cur := { rand := c.rand + 1, evaluate := c.evaluate, report := c.report },
    extraNum := 2 + (env.rand c.rand : Int) % 6 }

/-- The cursor at which the daily loop starts. -/
def Cursor.start : Cursor := { rand := 0, evaluate := 0, report := 0 }

/-! ## Assumptions on the tag table -/

/-- The ratings all have a usable tag group: a non-empty one whose length fits
the `int32` conversion. -/
def TagsAvailable (tagsGroup : Int → List String) (opts : PartnerOpts) : Prop :=
  ∀ s ∈ opts.Star, tagsGroup s ≠ [] ∧ ((tagsGroup s).length : Int) < 2147483648

/-! ## Sample inputs -/

/-- Modelled from the spec: a stand-in for the table `weapi.PartnerTagsGroup`
(package `api/weapi`, not part of the sources at hand), with a non-empty entry
exactly for the ratings 1 to 5. -/
def sampleTagsGroup : Int → List String :=
  fun s => if 1 ≤ s ∧ s ≤ 5 then ["tag-a", "tag-b"] else []

/-- A task item with the given work id. -/
def sampleWork (id : Int) (completed : Bool) : PartnerWork :=
  { Completed := completed, Work := { Id := id, ResourceId := 100 + id } }

/-- A logged-in partner session with the given batches and answers; the daily
task has id 1, every draw has raw value 0, the token refresh answers 200. -/
def sampleRemote (daily extra : List PartnerWork) (evaluate report : Nat → Option Int) :
    Remote :=
  { newClient := true
    needLogin := false
    partnerUserinfo := some { Code := 200, Status := "NORMAL" }
    partnerDailyTask := some { Id := 1, Works := daily }
    partnerExtraTask := some extra
    partnerEvaluate := evaluate
    partnerExtraReport := report
    tokenRefresh := some 200
    rand := fun _ => 0 }

/-- Evaluate answers 200, 200, 405, 200, 200, ... -/
def thirdIs405 : Nat → Option Int := fun k => if k = 2 then some 405 else some 200

/-- Every call is answered 200. -/
def always200 : Nat → Option Int := fun _ => some 200

/-- Every call returns an error. -/
def alwaysError : Nat → Option Int := fun _ => none

/-! ## Basic facts -/

theorem int32_of_range {n : Int} (h0 : -2147483648 ≤ n) (h1 : n < 2147483648) :
    int32 n = n := by
  unfold int32; omega

theorem Int31n_pos (raw : Nat) {n : Int} (h : 0 < n) :
    Int31n raw n = some ((raw : Int) % n) := by
  unfold Int31n; rw [if_neg (by omega)]

theorem pacingDelay_eq (raw : Nat) : pacingDelay raw = some (15 + (raw : Int) % 10) := by
  unfold pacingDelay; rw [Int31n_pos raw (by decide)]

theorem validate_none_iff (opts : PartnerOpts) :
    Partner.validate opts = none ↔
      1 ≤ opts.Star.length ∧ opts.Star.length ≤ 5 ∧ opts.Star.Nodup := by
  unfold Partner.validate IsUnique
  by_cases h : opts.Star.length = 0 ∨ opts.Star.length > 5
  · rw [if_pos h]; simp; omega
  · rw [if_neg h]
    by_cases hn : opts.Star.Nodup
    · simp [hn]; omega
    · simp [hn]

theorem get?_of_emod {α : Type} (xs : List α) (raw : Nat) (h : 0 < xs.length) :
    ∃ x, xs.get? ((raw : Int) % (xs.length : Int)).toNat = some x ∧ x ∈ xs := by
  have hlt : ((raw : Int) % (xs.length : Int)).toNat < xs.length := by
    have h1 : (raw : Int) % (xs.length : Int) < xs.length := Int.emod_lt_of_pos _ (by omega)
    have h2 : 0 ≤ (raw : Int) % (xs.length : Int) := Int.emod_nonneg _ (by omega)
    omega
  refine ⟨xs.get ⟨_, hlt⟩, ?_, List.get_mem _ _ _⟩
  exact List.get?_eq_get hlt

/-- With a valid configuration whose ratings have tag groups, the rating and tag
draw succeeds, and yields one of the configured ratings and one of its tags. -/
theorem pickStarTags_some (tagsGroup : Int → List String) (env : Remote) (opts : PartnerOpts)
    (k : Nat) (hv : Partner.validate opts = none) (ht : TagsAvailable tagsGroup opts) :
    ∃ star tags, pickStarTags tagsGroup env opts k = some (star, tags) ∧
      star ∈ opts.Star ∧ tags ∈ tagsGroup star := by
  obtain ⟨h1, h5, -⟩ := (validate_none_iff opts).1 hv
  obtain ⟨star, hs, hmem⟩ := get?_of_emod opts.Star (env.rand k) (by omega)
  obtain ⟨hne, hlen⟩ := ht star hmem
  have hpos : 0 < (tagsGroup star).length := List.length_pos.2 hne
  obtain ⟨tags, hg, hgm⟩ := get?_of_emod (tagsGroup star) (env.rand (k + 1)) hpos
  have e1 : int32 (opts.Star.length : Int) = opts.Star.length := by
    apply int32_of_range <;> omega
  have e2 : int32 ((tagsGroup star).length : Int) = (tagsGroup star).length := by
    apply int32_of_range
    · omega
    · exact hlen
  have p1 : (0 : Int) < opts.Star.length := by omega
  have p2 : (0 : Int) < (tagsGroup star).length := by omega
  refine ⟨star, tags, ?_, hmem, hgm⟩
  simp only [pickStarTags, e1, e2, Int31n_pos _ p1, Int31n_pos _ p2, hs, hg]

/-! ## The loop bodies, case by case -/

/-- Every outcome of the daily loop body. -/
theorem dailyStep_shape (tagsGroup : Int → List String) (env : Remote) (opts : PartnerOpts)
    (taskId : Int) (c : Cursor) (w : PartnerWork) :
    (w.Completed = true ∧ dailyStep tagsGroup env opts taskId c w = ([], Flow.next c)) ∨
    (w.Completed = false ∧ pickStarTags tagsGroup env opts (c.rand + 1) = none ∧
      ∃ d, dailyStep tagsGroup env opts taskId c w = ([Event.sleep d], Flow.panic)) ∨
    (w.Completed = false ∧ env.partnerEvaluate c.evaluate = none ∧
      ∃ d req, req.WorkId = w.Work.Id ∧ dailyStep tagsGroup env opts taskId c w =
        ([Event.sleep d, Event.partnerEvaluate req none], Flow.fail RunError.partnerEvaluate)) ∨
    (w.Completed = false ∧
      ∃ d req code, req.WorkId = w.Work.Id ∧ env.partnerEvaluate c.evaluate = some code ∧
        dailyStep tagsGroup env opts taskId c w =
          ([Event.sleep d, Event.partnerEvaluate req (some code)], Flow.next c.afterDaily)) := by
  unfold dailyStep
  cases hw : w.Completed
  · right
    simp only [Bool.false_eq_true, if_false, pacingDelay_eq]
    cases hp : pickStarTags tagsGroup env opts (c.rand + 1) with
    | none => left; exact ⟨trivial, rfl, _, rfl⟩
    | some p =>
      obtain ⟨star, tags⟩ := p
      right
      cases he : env.partnerEvaluate c.evaluate with
      | none => left; exact ⟨trivial, rfl, _, _, rfl, rfl⟩
      | some code =>
        right
        refine ⟨trivial, ?d, ?req, code, ?hid, rfl, ?heq⟩
        case heq => simp only [ite_self]; exact rfl
        case hid => exact rfl
  · left; simp

/-- Every outcome of the extra loop body. -/
theorem extraStep_shape (tagsGroup : Int → List String) (env : Remote) (opts : PartnerOpts)
    (taskId : Int) (s : ExtraState) (w : PartnerWork) :
    (w.Completed = true ∧ extraStep tagsGroup env opts taskId s w = ([], Flow.next s)) ∨
    (w.Completed = false ∧ pickStarTags tagsGroup env opts (s.cur.rand + 1) = none ∧
      ∃ d, extraStep tagsGroup env opts taskId s w = ([Event.sleep d], Flow.panic)) ∨
    (w.Completed = false ∧ env.partnerExtraReport s.cur.report = none ∧
      ∃ d req, req.WorkId = w.Work.Id ∧ extraStep tagsGroup env opts taskId s w =
        ([Event.sleep d, Event.partnerExtraReport req none],
          Flow.fail RunError.partnerExtraReport)) ∨
    (w.Completed = false ∧
      ∃ d req code, req.WorkId = w.Work.Id ∧ env.partnerExtraReport s.cur.report = some code ∧
        code ≠ 200 ∧ extraStep tagsGroup env opts taskId s w =
          ([Event.sleep d, Event.partnerExtraReport req (some code)],
            Flow.next { cur := s.cur.afterReport, extraNum := s.extraNum })) ∨
    (w.Completed = false ∧ env.partnerExtraReport s.cur.report = some 200 ∧
      env.partnerEvaluate s.cur.evaluate = none ∧
      ∃ d req ereq, req.WorkId = w.Work.Id ∧ ereq.WorkId = w.Work.Id ∧
        extraStep tagsGroup env opts taskId s w =
          ([Event.sleep d, Event.partnerExtraReport req (some 200),
            Event.partnerEvaluate ereq none], Flow.fail RunError.partnerEvaluate)) ∨
    (w.Completed = false ∧ env.partnerExtraReport s.cur.report = some 200 ∧
      ∃ d req ereq ecode, req.WorkId = w.Work.Id ∧ ereq.WorkId = w.Work.Id ∧
        env.partnerEvaluate s.cur.evaluate = some ecode ∧
        extraStep tagsGroup env opts taskId s w =
          ([Event.sleep d, Event.partnerExtraReport req (some 200),
            Event.partnerEvaluate ereq (some ecode)], extraFlow s ecode)) := by
  unfold extraStep
  cases hw : w.Completed
  · right
    simp only [Bool.false_eq_true, if_false, pacingDelay_eq]
    cases hp : pickStarTags tagsGroup env opts (s.cur.rand + 1) with
    | none => left; exact ⟨trivial, rfl, _, rfl⟩
    | some p =>
      obtain ⟨star, tags⟩ := p
      right
      cases hr : env.partnerExtraReport s.cur.report with
      | none => left; exact ⟨trivial, rfl, _, _, rfl, rfl⟩
      | some code =>
        right
        by_cases hc : code = 200
        · right
          subst hc
          cases he : env.partnerEvaluate s.cur.evaluate with
          | none =>
            left
            refine ⟨trivial, rfl, rfl, ?d, ?req, ?ereq, ?h1, ?h2, ?heq⟩
            case heq => simp only [ne_eq, not_true_eq_false, if_false]; exact rfl
            case h1 => exact rfl
            case h2 => exact rfl
          | some ecode =>
            right
            refine ⟨trivial, rfl, ?d, ?req, ?ereq, ecode, ?h1, ?h2, rfl, ?heq⟩
            case heq =>
              simp only [ne_eq, not_true_eq_false, if_false, extraFlow, Cursor.afterExtra]
              by_cases h200 : ecode = 200
              · subst h200
                by_cases hn : int32 (s.extraNum - 1) ≤ 0
                · simp only [if_true, if_pos hn]
                · simp only [if_true, if_neg hn]
              · simp only [if_neg h200, ite_self]
            case h1 => exact rfl
            case h2 => exact rfl
        · left
          refine ⟨trivial, ?d, ?req, code, ?h1, rfl, hc, ?heq⟩
          case heq => simp only [ne_eq, hc, not_false_eq_true, if_true]; exact rfl
          case h1 => exact rfl
  · left; simp

/-! ## Unfolding the loops -/

theorem dailyLoop_cons_next {tagsGroup : Int → List String} {env : Remote} {opts : PartnerOpts}
    {taskId : Int} {c c1 : Cursor} {w : PartnerWork} {t : List Event} (rest : List PartnerWork)
    (h : dailyStep tagsGroup env opts taskId c w = (t, Flow.next c1)) :
    dailyLoop tagsGroup env opts taskId c (w :: rest) =
      (t ++ (dailyLoop tagsGroup env opts taskId c1 rest).1,
        (dailyLoop tagsGroup env opts taskId c1 rest).2) := by
  simp only [dailyLoop, h]

theorem dailyLoop_cons_fail {tagsGroup : Int → List String} {env : Remote} {opts : PartnerOpts}
    {taskId : Int} {c : Cursor} {w : PartnerWork} {t : List Event} {e : RunError}
    (rest : List PartnerWork)
    (h : dailyStep tagsGroup env opts taskId c w = (t, Flow.fail e)) :
    dailyLoop tagsGroup env opts taskId c (w :: rest) = (t, Flow.fail e) := by
  simp only [dailyLoop, h]

theorem dailyLoop_cons_panic {tagsGroup : Int → List String} {env : Remote} {opts : PartnerOpts}
    {taskId : Int} {c : Cursor} {w : PartnerWork} {t : List Event} (rest : List PartnerWork)
    (h : dailyStep tagsGroup env opts taskId c w = (t, Flow.panic)) :
    dailyLoop tagsGroup env opts taskId c (w :: rest) = (t, Flow.panic) := by
  simp only [dailyLoop, h]

theorem extraLoop_cons_next {tagsGroup : Int → List String} {env : Remote} {opts : PartnerOpts}
    {taskId : Int} {s s1 : ExtraState} {w : PartnerWork} {t : List Event}
    (rest : List PartnerWork)
    (h : extraStep tagsGroup env opts taskId s w = (t, Flow.next s1)) :
    extraLoop tagsGroup env opts taskId s (w :: rest) =
      (t ++ (extraLoop tagsGroup env opts taskId s1 rest).1,
        (extraLoop tagsGroup env opts taskId s1 rest).2) := by
  simp only [extraLoop, h]

theorem extraLoop_cons_stop {tagsGroup : Int → List String} {env : Remote} {opts : PartnerOpts}
    {taskId : Int} {s s1 : ExtraState} {w : PartnerWork} {t : List Event}
    (rest : List PartnerWork)
    (h : extraStep tagsGroup env opts taskId s w = (t, Flow.stop s1)) :
    extraLoop tagsGroup env opts taskId s (w :: rest) = (t, Flow.stop s1) := by
  simp only [extraLoop, h]

theorem extraLoop_cons_fail {tagsGroup : Int → List String} {env : Remote} {opts : PartnerOpts}
    {taskId : Int} {s : ExtraState} {w : PartnerWork} {t : List Event} {e : RunError}
    (rest : List PartnerWork)
    (h : extraStep tagsGroup env opts taskId s w = (t, Flow.fail e)) :
    extraLoop tagsGroup env opts taskId s (w :: rest) = (t, Flow.fail e) := by
  simp only [extraLoop, h]

theorem extraLoop_cons_panic {tagsGroup : Int → List String} {env : Remote} {opts : PartnerOpts}
    {taskId : Int} {s : ExtraState} {w : PartnerWork} {t : List Event}
    (rest : List PartnerWork)
    (h : extraStep tagsGroup env opts taskId s w = (t, Flow.panic)) :
    extraLoop tagsGroup env opts taskId s (w :: rest) = (t, Flow.panic) := by
  simp only [extraLoop, h]

/-! ## The daily loop -/

/-- With usable ratings and answered evaluate calls, the daily loop runs to its end
and issues one delay and one evaluate call per non-completed item, in order. -/
theorem dailyLoop_visits (tagsGroup : Int → List String) (env : Remote) (opts : PartnerOpts)
    (taskId : Int) (hv : Partner.validate opts = none) (ht : TagsAvailable tagsGroup opts)
    (hok : ∀ k, env.partnerEvaluate k ≠ none) (works : List PartnerWork) (c : Cursor) :
    (∃ c1, (dailyLoop tagsGroup env opts taskId c works).2 = Flow.next c1) ∧
    (dailyLoop tagsGroup env opts taskId c works).1.map Event.action =
      (works.filter (fun w => !w.Completed)).flatMap
        (fun w => [Action.delay, Action.evaluate w.Work.Id]) := by
  induction works generalizing c with
  | nil => exact ⟨⟨c, rfl⟩, rfl⟩
  | cons w rest ih =>
    rcases dailyStep_shape tagsGroup env opts taskId c w with
      ⟨hw, h⟩ | ⟨_, hp, _⟩ | ⟨_, he, _⟩ | ⟨hw, d, req, code, hid, _, h⟩
    · rw [dailyLoop_cons_next rest h]
      obtain ⟨h1, h2⟩ := ih c
      refine ⟨h1, ?_⟩
      simp [hw, h2]
    · obtain ⟨star, tags, hs, _⟩ := pickStarTags_some tagsGroup env opts (c.rand + 1) hv ht
      rw [hs] at hp
      exact absurd hp (by simp)
    · exact absurd he (hok _)
    · rw [dailyLoop_cons_next rest h]
      obtain ⟨h1, h2⟩ := ih c.afterDaily
      refine ⟨h1, ?_⟩
      simp [hw, h2, Event.action, hid]

/-- A batch whose items are all completed costs the daily loop nothing. -/
theorem dailyLoop_all_completed (tagsGroup : Int → List String) (env : Remote)
    (opts : PartnerOpts) (taskId : Int) (works : List PartnerWork) (c : Cursor)
    (hall : ∀ w ∈ works, w.Completed = true) :
    dailyLoop tagsGroup env opts taskId c works = ([], Flow.next c) := by
  induction works with
  | nil => rfl
  | cons w rest ih =>
    have hw : w.Completed = true := hall w (List.mem_cons_self _ _)
    have hstep : dailyStep tagsGroup env opts taskId c w = ([], Flow.next c) := by
      simp [dailyStep, hw]
    rw [dailyLoop_cons_next rest hstep, ih (fun x hx => hall x (List.mem_cons_of_mem _ hx))]
    rfl

/-- How the daily loop can end: it never leaves through `goto end`; it fails only
with the evaluate error, and then a call in its trace has failed; when it runs
to its end no call in its trace has failed; it panics only on unusable ratings. -/
theorem dailyLoop_flow (tagsGroup : Int → List String) (env : Remote) (opts : PartnerOpts)
    (taskId : Int) (works : List PartnerWork) (c : Cursor) :
    match (dailyLoop tagsGroup env opts taskId c works).2 with
    | Flow.next _ =>
      ∀ ev ∈ (dailyLoop tagsGroup env opts taskId c works).1, ev.callFailed = false
    | Flow.stop _ => False
    | Flow.fail e => e = RunError.partnerEvaluate ∧
      ∃ ev ∈ (dailyLoop tagsGroup env opts taskId c works).1, ev.callFailed = true
    | Flow.panic => ¬ (Partner.validate opts = none ∧ TagsAvailable tagsGroup opts) := by
  induction works generalizing c with
  | nil => simp [dailyLoop]
  | cons w rest ih =>
    rcases dailyStep_shape tagsGroup env opts taskId c w with
      ⟨_, h⟩ | ⟨_, hp, d, h⟩ | ⟨_, _, d, req, _, h⟩ | ⟨_, d, req, code, _, _, h⟩
    · rw [dailyLoop_cons_next rest h]
      simpa using ih c
    · rw [dailyLoop_cons_panic rest h]
      rintro ⟨hv, ht⟩
      obtain ⟨star, tags, hs, _⟩ := pickStarTags_some tagsGroup env opts (c.rand + 1) hv ht
      rw [hs] at hp
      exact absurd hp (by simp)
    · rw [dailyLoop_cons_fail rest h]
      exact ⟨rfl, _, List.mem_cons_of_mem _ (List.mem_cons_self _ _), rfl⟩
    · rw [dailyLoop_cons_next rest h]
      have := ih c.afterDaily
      revert this
      cases (dailyLoop tagsGroup env opts taskId c.afterDaily rest).2 with
      | next s => 
        intro this ev hev
        simp only [List.mem_append, List.mem_cons, List.mem_singleton, List.not_mem_nil,
          or_false] at hev
        rcases hev with (rfl | rfl) | hev
        · rfl
        · rfl
        · exact this ev hev
      | stop s => exact id
      | fail e =>
        rintro ⟨he, ev, hev, hf⟩
        exact ⟨he, ev, List.mem_append_right _ hev, hf⟩
      | panic => exact id

/-! ## The extra loop -/

/-- A batch whose items are all completed costs the extra loop nothing. -/
theorem extraLoop_all_completed (tagsGroup : Int → List String) (env : Remote)
    (opts : PartnerOpts) (taskId : Int) (works : List PartnerWork) (s : ExtraState)
    (hall : ∀ w ∈ works, w.Completed = true) :
    extraLoop tagsGroup env opts taskId s works = ([], Flow.next s) := by
  induction works with
  | nil => rfl
  | cons w rest ih =>
    have hw : w.Completed = true := hall w (List.mem_cons_self _ _)
    have hstep : extraStep tagsGroup env opts taskId s w = ([], Flow.next s) := by
      simp [extraStep, hw]
    rw [extraLoop_cons_next rest hstep, ih (fun x hx => hall x (List.mem_cons_of_mem _ hx))]
    rfl

/-- The flow after an answered evaluate call, for a quota within range. -/
theorem extraFlow_cases (s : ExtraState) (ecode : Int) (h1 : 1 ≤ s.extraNum)
    (h2 : s.extraNum < 2147483648) :
    (ecode = 200 ∧ s.extraNum = 1 ∧
      extraFlow s ecode = Flow.stop { cur := s.cur.afterExtra, extraNum := 0 }) ∨
    (ecode = 200 ∧ 2 ≤ s.extraNum ∧
      extraFlow s ecode = Flow.next { cur := s.cur.afterExtra, extraNum := s.extraNum - 1 }) ∨
    (ecode ≠ 200 ∧
      extraFlow s ecode = Flow.next { cur := s.cur.afterExtra, extraNum := s.extraNum }) := by
  have hn : int32 (s.extraNum - 1) = s.extraNum - 1 := int32_of_range (by omega) (by omega)
  unfold extraFlow
  rw [hn]
  by_cases hc : ecode = 200
  · rw [if_pos hc]
    by_cases h : s.extraNum - 1 ≤ 0
    · left
      have h' : s.extraNum = 1 := by omega
      rw [if_pos h, h']
      exact ⟨hc, rfl, rfl⟩
    · right; left
      rw [if_neg h]
      exact ⟨hc, by omega, rfl⟩
  · right; right
    rw [if_neg hc]
    exact ⟨hc, rfl⟩

/-- The visits in a trace that starts with a delay and a report. -/
theorem visits_report_cons (d : Int) (req : PartnerExtraReportReq) (r : Option Int)
    (t : List Event) :
    (([Event.sleep d, Event.partnerExtraReport req r] ++ t).map Event.action).filter
        (fun a => !a.isEvaluate) =
      Action.delay :: Action.report req.WorkId ::
        (t.map Event.action).filter (fun a => !a.isEvaluate) := rfl

/-- The visits in a trace that starts with a delay, a report and an evaluate call. -/
theorem visits_evaluate_cons (d : Int) (req : PartnerExtraReportReq) (r : Option Int)
    (ereq : PartnerEvaluateReq) (r2 : Option Int) (t : List Event) :
    (([Event.sleep d, Event.partnerExtraReport req r, Event.partnerEvaluate ereq r2] ++ t).map
        Event.action).filter (fun a => !a.isEvaluate) =
      Action.delay :: Action.report req.WorkId ::
        (t.map Event.action).filter (fun a => !a.isEvaluate) := rfl

/-- With usable ratings, answered calls and a quota `q >= 1`, the extra loop either
runs to its end having visited every non-completed item, with fewer than `q`
evaluate calls answered 200, or leaves through `goto end` right after the `q`-th
evaluate call answered 200. -/
theorem extraLoop_quota (tagsGroup : Int → List String) (env : Remote) (opts : PartnerOpts)
    (taskId : Int) (hv : Partner.validate opts = none) (ht : TagsAvailable tagsGroup opts)
    (hr : ∀ k, env.partnerExtraReport k ≠ none) (he : ∀ k, env.partnerEvaluate k ≠ none)
    (works : List PartnerWork) (s : ExtraState) (h1 : 1 ≤ s.extraNum)
    (h2 : s.extraNum < 2147483648) :
    (∃ s1, (extraLoop tagsGroup env opts taskId s works).2 = Flow.next s1 ∧
      1 ≤ s1.extraNum ∧
      (((extraLoop tagsGroup env opts taskId s works).1.countP Event.accepted : Nat) : Int)
        + s1.extraNum = s.extraNum ∧
      ((extraLoop tagsGroup env opts taskId s works).1.map Event.action).filter
          (fun a => !a.isEvaluate) =
        (works.filter (fun w => !w.Completed)).flatMap
          (fun w => [Action.delay, Action.report w.Work.Id])) ∨
    (∃ s1 pre req, (extraLoop tagsGroup env opts taskId s works).2 = Flow.stop s1 ∧
      (((extraLoop tagsGroup env opts taskId s works).1.countP Event.accepted : Nat) : Int)
        = s.extraNum ∧
      (extraLoop tagsGroup env opts taskId s works).1 =
        pre ++ [Event.partnerEvaluate req (some 200)]) := by
  induction works generalizing s with
  | nil => left; exact ⟨s, rfl, h1, by simp [extraLoop], rfl⟩
  | cons w rest ih =>
    rcases extraStep_shape tagsGroup env opts taskId s w with
      ⟨hw, h⟩ | ⟨_, hp, _⟩ | ⟨_, hn, _⟩ | ⟨hw, d, req, code, hid, _, _, h⟩ |
      ⟨_, _, hn, _⟩ | ⟨hw, _, d, req, ereq, ecode, hid, heid, _, h⟩
    · rw [extraLoop_cons_next rest h]
      rcases ih s h1 h2 with ⟨s1, a, b, c, e⟩ | ⟨s1, pre, rq, a, b, c⟩
      · left; exact ⟨s1, a, b, by simpa using c, by simp [hw, e]⟩
      · right; exact ⟨s1, pre, rq, a, by simpa using b, by simpa using c⟩
    · obtain ⟨star, tags, hs, _⟩ := pickStarTags_some tagsGroup env opts (s.cur.rand + 1) hv ht
      rw [hs] at hp
      exact absurd hp (by simp)
    · exact absurd hn (hr _)
    · rw [extraLoop_cons_next rest h]
      rcases ih { cur := s.cur.afterReport, extraNum := s.extraNum } h1 h2 with
        ⟨s1, a, b, c, e⟩ | ⟨s1, pre, rq, a, b, c⟩
      · left
        refine ⟨s1, a, b, ?_, ?_⟩
        · simpa [List.countP_cons, Event.accepted] using c
        · rw [visits_report_cons, e, hid]; simp [hw]
      · right
        refine ⟨s1, [Event.sleep d, Event.partnerExtraReport req (some code)] ++ pre, rq, a, ?_, ?_⟩
        · simpa [List.countP_cons, Event.accepted] using b
        · simp [c]
    · exact absurd hn (he _)
    · rcases extraFlow_cases s ecode h1 h2 with ⟨hc, hq, hf⟩ | ⟨hc, hq, hf⟩ | ⟨hc, hf⟩
      · rw [hf] at h
        rw [extraLoop_cons_stop rest h]
        right
        refine ⟨_, [Event.sleep d, Event.partnerExtraReport req (some 200)], ereq, rfl, ?_, ?_⟩
        · simp [List.countP_cons, Event.accepted, hc, hq]
        · simp [hc]
      · rw [hf] at h
        rw [extraLoop_cons_next rest h]
        rcases ih { cur := s.cur.afterExtra, extraNum := s.extraNum - 1 } (by simp; omega)
            (by simp; omega) with ⟨s1, a, b, c, e⟩ | ⟨s1, pre, rq, a, b, c⟩
        · left
          refine ⟨s1, a, b, ?_, ?_⟩
          · simp [List.countP_cons, Event.accepted, hc] at c ⊢
            omega
          · rw [visits_evaluate_cons, e, hid]; simp [hw]
        · right
          refine ⟨s1, [Event.sleep d, Event.partnerExtraReport req (some 200),
            Event.partnerEvaluate ereq (some ecode)] ++ pre, rq, a, ?_, ?_⟩
          · simp [List.countP_cons, Event.accepted, hc] at b ⊢
            omega
          · simp [c]
      · rw [hf] at h
        rw [extraLoop_cons_next rest h]
        rcases ih { cur := s.cur.afterExtra, extraNum := s.extraNum } h1 h2 with
          ⟨s1, a, b, c, e⟩ | ⟨s1, pre, rq, a, b, c⟩
        · left
          refine ⟨s1, a, b, ?_, ?_⟩
          · simpa [List.countP_cons, Event.accepted, hc] using c
          · rw [visits_evaluate_cons, e, hid]; simp [hw]
        · right
          refine ⟨s1, [Event.sleep d, Event.partnerExtraReport req (some 200),
            Event.partnerEvaluate ereq (some ecode)] ++ pre, rq, a, ?_, ?_⟩
          · simpa [List.countP_cons, Event.accepted, hc] using b
          · simp [c]
/-- The flow after an answered evaluate call is `next` or `stop`. -/
theorem extraFlow_next_or_stop (s : ExtraState) (ecode : Int) :
    (∃ s1, extraFlow s ecode = Flow.next s1) ∨ (∃ s1, extraFlow s ecode = Flow.stop s1) := by
  unfold extraFlow
  by_cases hc : ecode = 200
  · rw [if_pos hc]
    by_cases h : int32 (s.extraNum - 1) ≤ 0
    · rw [if_pos h]; exact Or.inr ⟨_, rfl⟩
    · rw [if_neg h]; exact Or.inl ⟨_, rfl⟩
  · rw [if_neg hc]; exact Or.inl ⟨_, rfl⟩

/-- How the extra loop can end: when it runs to its end or leaves through
`goto end`, no call in its trace has failed; it fails only with the report or
the evaluate error, and then a call in its trace has failed; it panics only on
unusable ratings. -/
theorem extraLoop_flow (tagsGroup : Int → List String) (env : Remote) (opts : PartnerOpts)
    (taskId : Int) (works : List PartnerWork) (s : ExtraState) :
    match (extraLoop tagsGroup env opts taskId s works).2 with
    | Flow.next _ =>
      ∀ ev ∈ (extraLoop tagsGroup env opts taskId s works).1, ev.callFailed = false
    | Flow.stop _ =>
      ∀ ev ∈ (extraLoop tagsGroup env opts taskId s works).1, ev.callFailed = false
    | Flow.fail e => (e = RunError.partnerExtraReport ∨ e = RunError.partnerEvaluate) ∧
      ∃ ev ∈ (extraLoop tagsGroup env opts taskId s works).1, ev.callFailed = true
    | Flow.panic => ¬ (Partner.validate opts = none ∧ TagsAvailable tagsGroup opts) := by
  induction works generalizing s with
  | nil => simp [extraLoop]
  | cons w rest ih =>
    -- a step that goes on with a trace free of failed calls
    have goOn : ∀ (t : List Event) (s1 : ExtraState),
        extraStep tagsGroup env opts taskId s w = (t, Flow.next s1) →
        (∀ ev ∈ t, ev.callFailed = false) →
        match (extraLoop tagsGroup env opts taskId s (w :: rest)).2 with
        | Flow.next _ =>
          ∀ ev ∈ (extraLoop tagsGroup env opts taskId s (w :: rest)).1, ev.callFailed = false
        | Flow.stop _ =>
          ∀ ev ∈ (extraLoop tagsGroup env opts taskId s (w :: rest)).1, ev.callFailed = false
        | Flow.fail e => (e = RunError.partnerExtraReport ∨ e = RunError.partnerEvaluate) ∧
          ∃ ev ∈ (extraLoop tagsGroup env opts taskId s (w :: rest)).1, ev.callFailed = true
        | Flow.panic => ¬ (Partner.validate opts = none ∧ TagsAvailable tagsGroup opts) := by
      intro t s1 h hclean
      rw [extraLoop_cons_next rest h]
      have := ih s1
      revert this
      cases (extraLoop tagsGroup env opts taskId s1 rest).2 with
      | next s2 =>
        intro this ev hev
        rcases List.mem_append.1 hev with hev | hev
        · exact hclean ev hev
        · exact this ev hev
      | stop s2 =>
        intro this ev hev
        rcases List.mem_append.1 hev with hev | hev
        · exact hclean ev hev
        · exact this ev hev
      | fail e =>
        rintro ⟨he, ev, hev, hf⟩
        exact ⟨he, ev, List.mem_append_right _ hev, hf⟩
      | panic => exact id
    rcases extraStep_shape tagsGroup env opts taskId s w with
      ⟨_, h⟩ | ⟨_, hp, d, h⟩ | ⟨_, _, d, req, _, h⟩ | ⟨_, d, req, code, _, _, _, h⟩ |
      ⟨_, _, _, d, req, ereq, _, _, h⟩ | ⟨_, _, d, req, ereq, ecode, _, _, _, h⟩
    · exact goOn _ _ h (by simp)
    · rw [extraLoop_cons_panic rest h]
      rintro ⟨hv, ht⟩
      obtain ⟨star, tags, hs, _⟩ := pickStarTags_some tagsGroup env opts (s.cur.rand + 1) hv ht
      rw [hs] at hp
      exact absurd hp (by simp)
    · rw [extraLoop_cons_fail rest h]
      exact ⟨Or.inl rfl, _, List.mem_cons_of_mem _ (List.mem_cons_self _ _), rfl⟩
    · exact goOn _ _ h (by simp [Event.callFailed])
    · rw [extraLoop_cons_fail rest h]
      exact ⟨Or.inr rfl, _,
        List.mem_cons_of_mem _ (List.mem_cons_of_mem _ (List.mem_cons_self _ _)), rfl⟩
    · rcases extraFlow_next_or_stop s ecode with ⟨s1, hf⟩ | ⟨s1, hf⟩
      · rw [hf] at h
        exact goOn _ _ h (by simp [Event.callFailed])
      · rw [hf] at h
        rw [extraLoop_cons_stop rest h]
        simp [Event.callFailed]

/-! ## Evaluate calls follow their report -/

theorem follows_nil : EvaluateFollowsReport [] := by
  intro pre ereq r post h
  simp at h

theorem follows_append {a b : List Event} (ha : EvaluateFollowsReport a)
    (hb : EvaluateFollowsReport b) : EvaluateFollowsReport (a ++ b) := by
  intro pre ereq r post h
  rcases List.append_eq_append_iff.1 h with ⟨a1, hpre, hb1⟩ | ⟨c1, ha1, hc⟩
  · obtain ⟨pre1, rreq, h1, h2⟩ := hb a1 ereq r post hb1
    exact ⟨a ++ pre1, rreq, by rw [hpre, h1, List.append_assoc], h2⟩
  · cases c1 with
    | nil =>
      obtain ⟨pre1, rreq, h1, _⟩ := hb [] ereq r post (by simpa using hc.symm)
      simp at h1
    | cons x c2 =>
      simp only [List.cons_append, List.cons.injEq] at hc
      obtain ⟨hx, _⟩ := hc
      exact ha pre ereq r c2 (by rw [ha1, ← hx])

theorem follows_sleep (d : Int) : EvaluateFollowsReport [Event.sleep d] := by
  intro pre ereq r post h
  rcases pre with _ | ⟨a, _ | ⟨b, pre⟩⟩ <;> simp at h

theorem follows_report (d : Int) (req : PartnerExtraReportReq) (r0 : Option Int) :
    EvaluateFollowsReport [Event.sleep d, Event.partnerExtraReport req r0] := by
  intro pre ereq r post h
  rcases pre with _ | ⟨a, _ | ⟨b, _ | ⟨c, pre⟩⟩⟩ <;> simp at h

theorem follows_evaluate (d : Int) (req : PartnerExtraReportReq) (ereq : PartnerEvaluateReq)
    (r0 : Option Int) (hid : req.WorkId = ereq.WorkId) :
    EvaluateFollowsReport
      [Event.sleep d, Event.partnerExtraReport req (some 200), Event.partnerEvaluate ereq r0] := by
  intro pre ereq1 r post h
  rcases pre with _ | ⟨a, _ | ⟨b, _ | ⟨c, _ | ⟨e, pre⟩⟩⟩⟩ <;> simp at h
  obtain ⟨ha, hb, ⟨he, _⟩, _⟩ := h
  exact ⟨[a], req, by rw [← hb]; rfl, by rw [← he]; exact hid⟩

/-- In the trace of the extra loop every evaluate call comes right after a report
call for the same work id that was answered 200. -/
theorem extraLoop_follows (tagsGroup : Int → List String) (env : Remote) (opts : PartnerOpts)
    (taskId : Int) (works : List PartnerWork) (s : ExtraState) :
    EvaluateFollowsReport (extraLoop tagsGroup env opts taskId s works).1 := by
  induction works generalizing s with
  | nil => exact follows_nil
  | cons w rest ih =>
    rcases extraStep_shape tagsGroup env opts taskId s w with
      ⟨_, h⟩ | ⟨_, _, d, h⟩ | ⟨_, _, d, req, _, h⟩ | ⟨_, d, req, code, _, _, _, h⟩ |
      ⟨_, _, _, d, req, ereq, h1, h2, h⟩ | ⟨_, _, d, req, ereq, ecode, h1, h2, _, h⟩
    · rw [extraLoop_cons_next rest h]
      exact follows_append follows_nil (ih _)
    · rw [extraLoop_cons_panic rest h]
      exact follows_sleep d
    · rw [extraLoop_cons_fail rest h]
      exact follows_report d req none
    · rw [extraLoop_cons_next rest h]
      exact follows_append (follows_report d req _) (ih _)
    · rw [extraLoop_cons_fail rest h]
      exact follows_evaluate d req ereq none (by rw [h1, h2])
    · rcases extraFlow_next_or_stop s ecode with ⟨s1, hf⟩ | ⟨s1, hf⟩
      · rw [hf] at h
        rw [extraLoop_cons_next rest h]
        exact follows_append (follows_evaluate d req ereq _ (by rw [h1, h2])) (ih _)
      · rw [hf] at h
        rw [extraLoop_cons_stop rest h]
        exact follows_evaluate d req ereq _ (by rw [h1, h2])
/-! ## The phases of the run -/

/-- The extra phase when the extra batch cannot be fetched. -/
theorem extraPhase_fetch_error (tagsGroup : Int → List String) (env : Remote)
    (opts : PartnerOpts) (taskId : Int) (c : Cursor) (hx : env.partnerExtraTask = none) :
    extraPhase tagsGroup env opts taskId c =
      ([Event.partnerExtraTask none], Outcome.error RunError.partnerExtraTask) := by
  unfold extraPhase
  rw [Int31n_pos _ (by decide)]
  simp only [hx]

/-- The extra phase when the extra batch is fetched: the extra loop starts with a
quota in `[2, 7]`, and the token refresh follows unless the loop failed. -/
theorem extraPhase_fetched (tagsGroup : Int → List String) (env : Remote)
    (opts : PartnerOpts) (taskId : Int) (c : Cursor) (extra : List PartnerWork)
    (hx : env.partnerExtraTask = some extra) :
    extraPhase tagsGroup env opts taskId c =
      (Event.partnerExtraTask (some extra) ::
        (extraLoop tagsGroup env opts taskId (extraStart env c) extra).1 ++
        (if (extraLoop tagsGroup env opts taskId (extraStart env c) extra).2.finished
          then [Event.tokenRefresh env.tokenRefresh] else []),
        (extraLoop tagsGroup env opts taskId (extraStart env c) extra).2.outcome) := by
  have hq : int32 (2 + (env.rand c.rand : Int) % 6) = 2 + (env.rand c.rand : Int) % 6 :=
    int32_of_range (by omega) (by omega)
  unfold extraPhase
  rw [Int31n_pos _ (by decide)]
  simp only [hx, hq]
  unfold extraStart
  rcases hl : extraLoop tagsGroup env opts taskId
    { cur := { rand := c.rand + 1, evaluate := c.evaluate, report := c.report },
      extraNum := 2 + (env.rand c.rand : Int) % 6 } extra with ⟨t, f⟩
  cases f <;> simp [Flow.finished, Flow.outcome]

theorem extraStart_quota (env : Remote) (c : Cursor) :
    2 ≤ (extraStart env c).extraNum ∧ (extraStart env c).extraNum ≤ 7 := by
  unfold extraStart
  constructor <;> simp only <;> omega

/-- The run after the daily fetch, in terms of the two loops. -/
theorem afterDailyFetch_eq (tagsGroup : Int → List String) (env : Remote)
    (opts : PartnerOpts) (task : PartnerTaskData) :
    afterDailyFetch tagsGroup env opts task =
      match (dailyLoop tagsGroup env opts task.Id Cursor.start task.Works).2 with
      | Flow.fail e =>
        ((dailyLoop tagsGroup env opts task.Id Cursor.start task.Works).1, Outcome.error e)
      | Flow.panic =>
        ((dailyLoop tagsGroup env opts task.Id Cursor.start task.Works).1, Outcome.panic)
      | Flow.next c =>
        ((dailyLoop tagsGroup env opts task.Id Cursor.start task.Works).1 ++
          (extraPhase tagsGroup env opts task.Id c).1,
          (extraPhase tagsGroup env opts task.Id c).2)
      | Flow.stop c =>
        ((dailyLoop tagsGroup env opts task.Id Cursor.start task.Works).1 ++
          (extraPhase tagsGroup env opts task.Id c).1,
          (extraPhase tagsGroup env opts task.Id c).2) := by
  unfold afterDailyFetch Cursor.start
  rcases hl : dailyLoop tagsGroup env opts task.Id { rand := 0, evaluate := 0, report := 0 }
    task.Works with ⟨t, f⟩
  cases f <;> rfl

/-- The run with a client, once the eligibility gate has passed. -/
theorem withClient_passed (tagsGroup : Int → List String) (env : Remote) (opts : PartnerOpts)
    (info : PartnerUserinfoResp) (hl : env.needLogin = false)
    (hi : env.partnerUserinfo = some info) (h200 : info.Code = 200)
    (hst : info.Status ≠ "ELIMINATED") :
    withClient tagsGroup env opts =
      match env.partnerDailyTask with
      | none =>
        ([Event.needLogin false, Event.partnerUserinfo (some info), Event.partnerDailyTask none],
          Outcome.error RunError.partnerDailyTask)
      | some task =>
        (Event.needLogin false :: Event.partnerUserinfo (some info) ::
          Event.partnerDailyTask (some task) :: (afterDailyFetch tagsGroup env opts task).1,
          (afterDailyFetch tagsGroup env opts task).2) := by
  unfold withClient
  simp only [hl, hi, h200, hst, Bool.false_eq_true, if_false, ne_eq, not_true_eq_false]
  have h703 : ¬ ((200 : Int) = 703) := by decide
  rw [if_neg h703]
  cases env.partnerDailyTask <;> rfl

/-- The run with a client, when the eligibility gate stops it. -/
theorem withClient_stopped (tagsGroup : Int → List String) (env : Remote) (opts : PartnerOpts)
    (info : PartnerUserinfoResp) (hl : env.needLogin = false)
    (hi : env.partnerUserinfo = some info)
    (hno : ¬ (info.Code = 200 ∧ info.Status ≠ "ELIMINATED")) :
    withClient tagsGroup env opts =
      ([Event.needLogin false, Event.partnerUserinfo (some info)],
        if info.Code = 703 then Outcome.error RunError.notPartner
        else if info.Code ≠ 200 then Outcome.error (RunError.userinfoCode info.Code)
        else Outcome.error RunError.eliminated) := by
  unfold withClient
  simp only [hl, hi, Bool.false_eq_true, if_false]
  by_cases h703 : info.Code = 703
  · simp only [h703, if_true]
  · simp only [if_neg h703]
    by_cases h200 : info.Code = 200
    · have hst : info.Status = "ELIMINATED" := by
        by_contra h
        exact hno ⟨h200, h⟩
      simp [h200, hst]
    · simp [h200]
/-- After the daily fetch the run can only return the evaluate error, the report
error or the extra fetch error. -/
theorem afterDailyFetch_error (tagsGroup : Int → List String) (env : Remote)
    (opts : PartnerOpts) (task : PartnerTaskData) (e : RunError)
    (h : (afterDailyFetch tagsGroup env opts task).2 = Outcome.error e) :
    e = RunError.partnerEvaluate ∨ e = RunError.partnerExtraReport ∨
      e = RunError.partnerExtraTask := by
  rw [afterDailyFetch_eq] at h
  have hd := dailyLoop_flow tagsGroup env opts task.Id task.Works Cursor.start
  have key : ∀ c, (extraPhase tagsGroup env opts task.Id c).2 = Outcome.error e →
      e = RunError.partnerEvaluate ∨ e = RunError.partnerExtraReport ∨
        e = RunError.partnerExtraTask := by
    intro c hc
    cases hx : env.partnerExtraTask with
    | none =>
      rw [extraPhase_fetch_error _ _ _ _ _ hx] at hc
      simp only [Outcome.error.injEq] at hc
      exact Or.inr (Or.inr hc.symm)
    | some extra =>
      rw [extraPhase_fetched _ _ _ _ _ extra hx] at hc
      have hf := extraLoop_flow tagsGroup env opts task.Id extra (extraStart env c)
      revert hc hf
      cases (extraLoop tagsGroup env opts task.Id (extraStart env c) extra).2 with
      | next s => simp [Flow.outcome]
      | stop s => simp [Flow.outcome]
      | fail e1 =>
        simp only [Flow.outcome, Outcome.error.injEq]
        rintro rfl ⟨h1 | h1, _⟩
        · exact Or.inr (Or.inl h1)
        · exact Or.inl h1
      | panic => simp [Flow.outcome]
  revert h hd
  cases (dailyLoop tagsGroup env opts task.Id Cursor.start task.Works).2 with
  | next c => intro h _; exact key c h
  | stop c => intro h _; exact key c h
  | fail e1 =>
    simp only [Outcome.error.injEq]
    rintro rfl ⟨h1, _⟩
    exact Or.inl h1
  | panic => simp

/-- A call that did not fail can be dropped from the front of a trace. -/
theorem noFailed_cons (e : Event) (t : List Event) (he : e.callFailed = false) :
    (∀ ev ∈ e :: t, ev.callFailed = false) ↔ ∀ ev ∈ t, ev.callFailed = false := by
  constructor
  · intro h ev hev
    exact h ev (List.mem_cons_of_mem _ hev)
  · intro h ev hev
    rcases List.mem_cons.1 hev with rfl | hev
    · exact he
    · exact h ev hev

/-- A call that did not fail can be dropped from the end of a trace. -/
theorem noFailed_snoc (e : Event) (t : List Event) (he : e.callFailed = false) :
    (∀ ev ∈ t ++ [e], ev.callFailed = false) ↔ ∀ ev ∈ t, ev.callFailed = false := by
  constructor
  · intro h ev hev
    exact h ev (List.mem_append_left _ hev)
  · intro h ev hev
    rcases List.mem_append.1 hev with hev | hev
    · exact h ev hev
    · rw [List.mem_singleton.1 hev]
      exact he

/-- After the daily fetch, with usable ratings and a fetched extra batch, the run
does not panic, and it returns no error exactly when no report or evaluate call
in its trace has failed. -/
theorem afterDailyFetch_outcome (tagsGroup : Int → List String) (env : Remote)
    (opts : PartnerOpts) (task : PartnerTaskData) (extra : List PartnerWork)
    (hv : Partner.validate opts = none) (ht : TagsAvailable tagsGroup opts)
    (hx : env.partnerExtraTask = some extra) :
    (afterDailyFetch tagsGroup env opts task).2 ≠ Outcome.panic ∧
    ((afterDailyFetch tagsGroup env opts task).2 = Outcome.ok ↔
      ∀ ev ∈ (afterDailyFetch tagsGroup env opts task).1, ev.callFailed = false) := by
  rw [afterDailyFetch_eq]
  have hd := dailyLoop_flow tagsGroup env opts task.Id task.Works Cursor.start
  have key : ∀ c, (extraPhase tagsGroup env opts task.Id c).2 ≠ Outcome.panic ∧
      ((extraPhase tagsGroup env opts task.Id c).2 = Outcome.ok ↔
        ∀ ev ∈ (extraPhase tagsGroup env opts task.Id c).1, ev.callFailed = false) := by
    intro c
    rw [extraPhase_fetched _ _ _ _ _ extra hx]
    have hf := extraLoop_flow tagsGroup env opts task.Id extra (extraStart env c)
    revert hf
    cases (extraLoop tagsGroup env opts task.Id (extraStart env c) extra).2 with
    | next s =>
      intro hf
      simp only [Flow.outcome, Flow.finished, if_true]
      refine ⟨by simp, fun _ => ?_, fun _ => trivial⟩
      rw [noFailed_snoc (Event.tokenRefresh env.tokenRefresh) _ rfl,
        noFailed_cons (Event.partnerExtraTask (some extra)) _ rfl]
      exact hf
    | stop s =>
      intro hf
      simp only [Flow.outcome, Flow.finished, if_true]
      refine ⟨by simp, fun _ => ?_, fun _ => trivial⟩
      rw [noFailed_snoc (Event.tokenRefresh env.tokenRefresh) _ rfl,
        noFailed_cons (Event.partnerExtraTask (some extra)) _ rfl]
      exact hf
    | fail e =>
      rintro ⟨_, ev, hev, hbad⟩
      simp only [Flow.outcome, Flow.finished]
      refine ⟨by simp, fun h => by simp at h, fun h => ?_⟩
      have := h ev (List.mem_cons_of_mem _ (List.mem_append_left _ hev))
      rw [hbad] at this
      exact absurd this (by simp)
    | panic => intro hf; exact absurd ⟨hv, ht⟩ hf
  revert hd
  cases (dailyLoop tagsGroup env opts task.Id Cursor.start task.Works).2 with
  | next c =>
    intro hd
    obtain ⟨k1, k2⟩ := key c
    refine ⟨k1, ?_⟩
    simp only
    rw [k2]
    constructor
    · intro h ev hev
      rcases List.mem_append.1 hev with hev | hev
      · exact hd ev hev
      · exact h ev hev
    · intro h ev hev
      exact h ev (List.mem_append_right _ hev)
  | stop c => intro hd; exact absurd hd id
  | fail e =>
    rintro ⟨_, ev, hev, hbad⟩
    refine ⟨by simp, fun h => by simp at h, fun h => ?_⟩
    have := h ev hev
    rw [hbad] at this
    exact absurd this (by simp)
  | panic => intro hd; exact absurd ⟨hv, ht⟩ hd

/-- The sample tag table serves the ratings 3 and 4. -/
theorem sampleTags_available : TagsAvailable sampleTagsGroup { Star := [3, 4] } := by
  intro s hs
  simp only [List.mem_cons, List.mem_singleton, List.not_mem_nil, or_false] at hs
  rcases hs with rfl | rfl <;> decide

/-! ## The loops, whatever the calls answer -/

theorem dailyCalls_cons_completed (w : PartnerWork) (rest : List PartnerWork)
    (hw : w.Completed = true) : dailyCalls (w :: rest) = dailyCalls rest := by
  simp [dailyCalls, hw]

theorem dailyCalls_cons_open (w : PartnerWork) (rest : List PartnerWork)
    (hw : w.Completed = false) :
    dailyCalls (w :: rest) = Action.delay :: Action.evaluate w.Work.Id :: dailyCalls rest := by
  simp [dailyCalls, hw]

theorem extraVisits_cons_completed (w : PartnerWork) (rest : List PartnerWork)
    (hw : w.Completed = true) : extraVisits (w :: rest) = extraVisits rest := by
  simp [extraVisits, hw]

theorem extraVisits_cons_open (w : PartnerWork) (rest : List PartnerWork)
    (hw : w.Completed = false) :
    extraVisits (w :: rest) = Action.delay :: Action.report w.Work.Id :: extraVisits rest := by
  simp [extraVisits, hw]

theorem visits_append (a b : List Event) : visits (a ++ b) = visits a ++ visits b := by
  simp [visits]

/-- With usable ratings the daily loop yields a `DailyRun`. -/
theorem dailyLoop_run (tagsGroup : Int → List String) (env : Remote) (opts : PartnerOpts)
    (taskId : Int) (hv : Partner.validate opts = none) (ht : TagsAvailable tagsGroup opts)
    (works : List PartnerWork) (c : Cursor) :
    DailyRun works c (dailyLoop tagsGroup env opts taskId c works) := by
  induction works generalizing c with
  | nil =>
    left
    exact ⟨rfl, by simp [dailyLoop], rfl⟩
  | cons w rest ih =>
    rcases dailyStep_shape tagsGroup env opts taskId c w with
      ⟨hw, h⟩ | ⟨_, hp, _⟩ | ⟨hw, _, d, req, hid, h⟩ | ⟨hw, d, req, code, hid, _, h⟩
    · rw [dailyLoop_cons_next rest h]
      rcases ih c with ⟨a, b, e⟩ | ⟨a, pre, rq, n, b, e, f⟩
      · left
        refine ⟨?_, by simpa using b, ?_⟩
        · simp only [List.nil_append]
          rw [a]
          simp [hw]
        · simp only [List.nil_append]
          rw [e, dailyCalls_cons_completed w rest hw]
      · right
        refine ⟨a, pre, rq, n + 1, by simpa using b, e, ?_⟩
        simp only [List.nil_append, List.take_succ_cons]
        rw [f, dailyCalls_cons_completed w _ hw]
    · obtain ⟨star, tags, hs, _⟩ := pickStarTags_some tagsGroup env opts (c.rand + 1) hv ht
      rw [hs] at hp
      exact absurd hp (by simp)
    · rw [dailyLoop_cons_fail rest h]
      right
      refine ⟨rfl, [Event.sleep d], req, 1, rfl, ?_, ?_⟩
      · intro ev hev
        rw [List.mem_singleton.1 hev]
        rfl
      · simp only [List.take_succ_cons, List.take_zero]
        rw [dailyCalls_cons_open w [] hw]
        simp [Event.action, hid, dailyCalls]
    · rw [dailyLoop_cons_next rest h]
      rcases ih c.afterDaily with ⟨a, b, e⟩ | ⟨a, pre, rq, n, b, e, f⟩
      · left
        refine ⟨?_, ?_, ?_⟩
        · simp only
          rw [a]
          simp only [Cursor.afterDaily, hw, List.filter_cons, Bool.not_false, if_true,
            List.length_cons, Flow.next.injEq, Cursor.mk.injEq, and_true]
          constructor <;> omega
        · intro ev hev
          rcases List.mem_append.1 hev with hev | hev
          · simp only [List.mem_cons, List.mem_singleton, List.not_mem_nil, or_false] at hev
            rcases hev with rfl | rfl <;> rfl
          · exact b ev hev
        · simp only [List.map_append, List.map_cons, List.map_nil]
          rw [e, dailyCalls_cons_open w rest hw]
          simp [Event.action, hid]
      · right
        refine ⟨a, [Event.sleep d, Event.partnerEvaluate req (some code)] ++ pre, rq, n + 1,
          ?_, ?_, ?_⟩
        · simp only
          rw [b, List.append_assoc]
        · intro ev hev
          rcases List.mem_append.1 hev with hev | hev
          · simp only [List.mem_cons, List.mem_singleton, List.not_mem_nil, or_false] at hev
            rcases hev with rfl | rfl <;> rfl
          · exact e ev hev
        · simp only [List.map_append, List.map_cons, List.map_nil, List.take_succ_cons]
          rw [f, dailyCalls_cons_open w _ hw]
          simp [Event.action, hid]

/-- A completed item in front changes nothing in an extra run. -/
theorem extraRun_skip (w : PartnerWork) (rest : List PartnerWork) (q : Int)
    (r : List Event × Flow ExtraState) (hw : w.Completed = true) (h : ExtraRun rest q r) :
    ExtraRun (w :: rest) q r := by
  rcases h with ⟨s1, a, b, e, f, g⟩ | ⟨s1, pre, req, n, a, b, e, f, g⟩ |
    ⟨e0, pre, ev, n, a, b, e, f, g, i⟩
  · left
    exact ⟨s1, a, b, e, f, by rw [g, extraVisits_cons_completed w rest hw]⟩
  · right; left
    refine ⟨s1, pre, req, n + 1, a, b, e, f, ?_⟩
    rw [g, List.take_succ_cons, extraVisits_cons_completed w _ hw]
  · right; right
    refine ⟨e0, pre, ev, n + 1, a, b, e, f, g, ?_⟩
    rw [i, List.take_succ_cons, extraVisits_cons_completed w _ hw]

/-- An extra run after the events of one visited item that did not end the loop. -/
theorem extraRun_cons (w : PartnerWork) (rest : List PartnerWork) (q : Int) (k : Nat)
    (chunk : List Event) (r : List Event × Flow ExtraState) (hw : w.Completed = false)
    (hk : chunk.countP Event.accepted = k)
    (hnf : ∀ ev ∈ chunk, ev.callFailed = false)
    (hvis : visits chunk = [Action.delay, Action.report w.Work.Id])
    (h : ExtraRun rest (q - (k : Int)) r) :
    ExtraRun (w :: rest) q (chunk ++ r.1, r.2) := by
  have hall : ∀ t : List Event, (∀ ev ∈ t, ev.callFailed = false) →
      ∀ ev ∈ chunk ++ t, ev.callFailed = false := by
    intro t ht ev hev
    rcases List.mem_append.1 hev with hev | hev
    · exact hnf ev hev
    · exact ht ev hev
  rcases h with ⟨s1, a, b, e, f, g⟩ | ⟨s1, pre, req, n, a, b, e, f, g⟩ |
    ⟨e0, pre, ev, n, a, b, e, f, g, i⟩
  · left
    refine ⟨s1, a, b, ?_, hall _ f, ?_⟩
    · simp only [List.countP_append, hk]
      push_cast
      omega
    · simp only
      rw [visits_append, hvis, g, extraVisits_cons_open w rest hw]
      rfl
  · right; left
    refine ⟨s1, chunk ++ pre, req, n + 1, a, ?_, ?_, hall _ f, ?_⟩
    · simp only [List.countP_append, hk]
      push_cast
      omega
    · simp only
      rw [e, List.append_assoc]
    · simp only
      rw [visits_append, hvis, g, List.take_succ_cons, extraVisits_cons_open w _ hw]
      rfl
  · right; right
    refine ⟨e0, chunk ++ pre, ev, n + 1, a, ?_, e, hall _ f, ?_, ?_⟩
    · simp only
      rw [b, List.append_assoc]
    · simp only [List.countP_append, hk]
      push_cast
      omega
    · simp only
      rw [visits_append, hvis, i, List.take_succ_cons, extraVisits_cons_open w _ hw]
      rfl

/-- With usable ratings and a quota `q >= 1` the extra loop yields an `ExtraRun`. -/
theorem extraLoop_run (tagsGroup : Int → List String) (env : Remote) (opts : PartnerOpts)
    (taskId : Int) (hv : Partner.validate opts = none) (ht : TagsAvailable tagsGroup opts)
    (works : List PartnerWork) (s : ExtraState) (h1 : 1 ≤ s.extraNum)
    (h2 : s.extraNum < 2147483648) :
    ExtraRun works s.extraNum (extraLoop tagsGroup env opts taskId s works) := by
  induction works generalizing s with
  | nil =>
    left
    exact ⟨s, rfl, h1, by simp [extraLoop], by simp [extraLoop], rfl⟩
  | cons w rest ih =>
    rcases extraStep_shape tagsGroup env opts taskId s w with
      ⟨hw, h⟩ | ⟨_, hp, _⟩ | ⟨hw, _, d, req, hid, h⟩ | ⟨hw, d, req, code, hid, _, _, h⟩ |
      ⟨hw, _, _, d, req, ereq, hid, _, h⟩ | ⟨hw, _, d, req, ereq, ecode, hid, _, _, h⟩
    · rw [extraLoop_cons_next rest h]
      exact extraRun_skip w rest _ _ hw (ih s h1 h2)
    · obtain ⟨star, tags, hs, _⟩ := pickStarTags_some tagsGroup env opts (s.cur.rand + 1) hv ht
      rw [hs] at hp
      exact absurd hp (by simp)
    · rw [extraLoop_cons_fail rest h]
      right; right
      refine ⟨_, [Event.sleep d], Event.partnerExtraReport req none, 1, rfl, rfl, rfl, ?_, ?_, ?_⟩
      · intro ev hev
        rw [List.mem_singleton.1 hev]
        rfl
      · simp [List.countP_cons, Event.accepted]
        omega
      · simp only [List.take_succ_cons, List.take_zero]
        rw [extraVisits_cons_open w [] hw, ← hid]
        rfl
    · rw [extraLoop_cons_next rest h]
      refine extraRun_cons w rest _ 0 _ _ hw ?_ ?_ ?_ ?_
      · simp [List.countP_cons, Event.accepted]
      · intro ev hev
        simp only [List.mem_cons, List.mem_singleton, List.not_mem_nil, or_false] at hev
        rcases hev with rfl | rfl <;> rfl
      · rw [← hid]; rfl
      · simpa using ih { cur := s.cur.afterReport, extraNum := s.extraNum } h1 h2
    · rw [extraLoop_cons_fail rest h]
      right; right
      refine ⟨_, [Event.sleep d, Event.partnerExtraReport req (some 200)],
        Event.partnerEvaluate ereq none, 1, rfl, rfl, rfl, ?_, ?_, ?_⟩
      · intro ev hev
        simp only [List.mem_cons, List.mem_singleton, List.not_mem_nil, or_false] at hev
        rcases hev with rfl | rfl <;> rfl
      · simp [List.countP_cons, Event.accepted]
        omega
      · simp only [List.take_succ_cons, List.take_zero]
        rw [extraVisits_cons_open w [] hw, ← hid]
        rfl
    · rcases extraFlow_cases s ecode h1 h2 with ⟨hc, hq, hf⟩ | ⟨hc, hq, hf⟩ | ⟨hc, hf⟩
      · rw [hf] at h
        rw [extraLoop_cons_stop rest h]
        right; left
        refine ⟨_, [Event.sleep d, Event.partnerExtraReport req (some 200)], ereq, 1, rfl,
          ?_, ?_, ?_, ?_⟩
        · simp [List.countP_cons, Event.accepted, hc, hq]
        · simp [hc]
        · intro ev hev
          simp only [List.mem_cons, List.mem_singleton, List.not_mem_nil, or_false] at hev
          rcases hev with rfl | rfl | rfl <;> rfl
        · simp only [List.take_succ_cons, List.take_zero]
          rw [extraVisits_cons_open w [] hw, ← hid]
          rfl
      · rw [hf] at h
        rw [extraLoop_cons_next rest h]
        refine extraRun_cons w rest _ 1 _ _ hw ?_ ?_ ?_ ?_
        · simp [List.countP_cons, Event.accepted, hc]
        · intro ev hev
          simp only [List.mem_cons, List.mem_singleton, List.not_mem_nil, or_false] at hev
          rcases hev with rfl | rfl | rfl <;> rfl
        · rw [← hid]; rfl
        · simpa using ih { cur := s.cur.afterExtra, extraNum := s.extraNum - 1 }
            (by simp only; omega) (by simp only; omega)
      · rw [hf] at h
        rw [extraLoop_cons_next rest h]
        refine extraRun_cons w rest _ 0 _ _ hw ?_ ?_ ?_ ?_
        · simp [List.countP_cons, Event.accepted, hc]
        · intro ev hev
          simp only [List.mem_cons, List.mem_singleton, List.not_mem_nil, or_false] at hev
          rcases hev with rfl | rfl | rfl <;> rfl
        · rw [← hid]; rfl
        · simpa using ih { cur := s.cur.afterExtra, extraNum := s.extraNum } h1 h2

/-! ## Why a run returns an error -/

/-- After the daily fetch the run returns an error only when the extra batch
cannot be fetched or when a report or evaluate call in its trace has failed. -/
theorem afterDailyFetch_error_cause (tagsGroup : Int → List String) (env : Remote)
    (opts : PartnerOpts) (task : PartnerTaskData) (e : RunError)
    (h : (afterDailyFetch tagsGroup env opts task).2 = Outcome.error e) :
    (e = RunError.partnerExtraTask ∧ env.partnerExtraTask = none) ∨
    ((e = RunError.partnerEvaluate ∨ e = RunError.partnerExtraReport) ∧
      ∃ ev ∈ (afterDailyFetch tagsGroup env opts task).1, ev.callFailed = true) := by
  rw [afterDailyFetch_eq] at h ⊢
  have hd := dailyLoop_flow tagsGroup env opts task.Id task.Works Cursor.start
  have key : ∀ c, (extraPhase tagsGroup env opts task.Id c).2 = Outcome.error e →
      (e = RunError.partnerExtraTask ∧ env.partnerExtraTask = none) ∨
      ((e = RunError.partnerEvaluate ∨ e = RunError.partnerExtraReport) ∧
        ∃ ev ∈ (extraPhase tagsGroup env opts task.Id c).1, ev.callFailed = true) := by
    intro c hc
    cases hx : env.partnerExtraTask with
    | none =>
      rw [extraPhase_fetch_error _ _ _ _ _ hx] at hc
      simp only [Outcome.error.injEq] at hc
      exact Or.inl ⟨hc.symm, rfl⟩
    | some extra =>
      right
      rw [extraPhase_fetched _ _ _ _ _ extra hx] at hc ⊢
      have hf := extraLoop_flow tagsGroup env opts task.Id extra (extraStart env c)
      revert hc hf
      cases (extraLoop tagsGroup env opts task.Id (extraStart env c) extra).2 with
      | next s => simp [Flow.outcome]
      | stop s => simp [Flow.outcome]
      | fail e1 =>
        simp only [Flow.outcome, Outcome.error.injEq]
        rintro rfl ⟨h1, ev, hev, hbad⟩
        refine ⟨h1.symm, ev, ?_, hbad⟩
        exact List.mem_append_left _ (List.mem_cons_of_mem _ hev)
      | panic => simp [Flow.outcome]
  revert h hd
  cases (dailyLoop tagsGroup env opts task.Id Cursor.start task.Works).2 with
  | next c =>
    intro h _
    rcases key c h with h1 | ⟨h1, ev, hev, hbad⟩
    · exact Or.inl h1
    · exact Or.inr ⟨h1, ev, List.mem_append_right _ hev, hbad⟩
  | stop c => intro _ hd; exact absurd hd id
  | fail e1 =>
    simp only [Outcome.error.injEq]
    rintro rfl ⟨h1, ev, hev, hbad⟩
    exact Or.inr ⟨Or.inl h1, ev, hev, hbad⟩
  | panic => simp

/-- Every error `Partner.execute` returns has one of these causes: the
configuration is rejected, the client cannot be created, the session is not
logged in, the status query fails or answers 703, another code than 200, or
"ELIMINATED", a batch cannot be fetched, or a report or evaluate call fails. -/
theorem execute_error_cause (tagsGroup : Int → List String) (env : Remote)
    (opts : PartnerOpts) (e : RunError)
    (h : (Partner.execute tagsGroup env opts).2 = Outcome.error e) :
    Partner.validate opts = some e ∨
    (e = RunError.newClient ∧ env.newClient = false) ∨
    (e = RunError.needLogin ∧ env.needLogin = true) ∨
    (e = RunError.partnerUserinfo ∧ env.partnerUserinfo = none) ∨
    (∃ info, env.partnerUserinfo = some info ∧
      ((e = RunError.notPartner ∧ info.Code = 703) ∨
        (e = RunError.userinfoCode info.Code ∧ info.Code ≠ 200) ∨
        (e = RunError.eliminated ∧ info.Status = "ELIMINATED"))) ∨
    (e = RunError.partnerDailyTask ∧ env.partnerDailyTask = none) ∨
    (e = RunError.partnerExtraTask ∧ env.partnerExtraTask = none) ∨
    ((e = RunError.partnerEvaluate ∨ e = RunError.partnerExtraReport) ∧
      ∃ ev ∈ (Partner.execute tagsGroup env opts).1, ev.callFailed = true) := by
  unfold Partner.execute at h ⊢
  cases hval : Partner.validate opts with
  | some e0 =>
    rw [hval] at h
    simp only [Outcome.error.injEq] at h
    rw [h]
    exact Or.inl rfl
  | none =>
    right
    rw [hval] at h
    simp only at h ⊢
    unfold Partner.do_ at h ⊢
    cases hc : env.newClient with
    | false =>
      rw [hc] at h
      simp only [Bool.false_eq_true, if_false, Outcome.error.injEq] at h
      exact Or.inl ⟨h.symm, rfl⟩
    | true =>
      right
      rw [hc] at h
      simp only [if_true] at h ⊢
      cases hl : env.needLogin with
      | true =>
        left
        unfold withClient at h
        rw [hl] at h
        simp only [if_true, Outcome.error.injEq] at h
        exact ⟨h.symm, rfl⟩
      | false =>
        right
        cases hi : env.partnerUserinfo with
        | none =>
          left
          unfold withClient at h
          rw [hl, hi] at h
          simp only [Bool.false_eq_true, if_false, Outcome.error.injEq] at h
          exact ⟨h.symm, rfl⟩
        | some info =>
          right
          by_cases hp : info.Code = 200 ∧ info.Status ≠ "ELIMINATED"
          · right
            rw [withClient_passed tagsGroup env opts info hl hi hp.1 hp.2] at h ⊢
            cases hd : env.partnerDailyTask with
            | none =>
              rw [hd] at h
              simp only [Outcome.error.injEq] at h
              exact Or.inl ⟨h.symm, rfl⟩
            | some task =>
              right
              rw [hd] at h
              simp only at h ⊢
              rcases afterDailyFetch_error_cause tagsGroup env opts task e h with
                h1 | ⟨h1, ev, hev, hbad⟩
              · exact Or.inl h1
              · refine Or.inr ⟨h1, ev, ?_, hbad⟩
                simp only [List.cons_append, List.mem_cons, List.mem_append]
                exact Or.inr (Or.inr (Or.inr (Or.inr (Or.inl hev))))
          · left
            refine ⟨info, rfl, ?_⟩
            rw [withClient_stopped tagsGroup env opts info hl hi hp] at h
            simp only at h
            by_cases h703 : info.Code = 703
            · rw [if_pos h703] at h
              simp only [Outcome.error.injEq] at h
              exact Or.inl ⟨h.symm, h703⟩
            · rw [if_neg h703] at h
              by_cases h200 : info.Code = 200
              · have hst : info.Status = "ELIMINATED" := by
                  by_contra hne
                  exact hp ⟨h200, hne⟩
                simp only [h200, ne_eq, not_true_eq_false, if_false,
                  Outcome.error.injEq] at h
                exact Or.inr (Or.inr ⟨h.symm, hst⟩)
              · simp only [ne_eq, h200, not_false_eq_true, if_true,
                  Outcome.error.injEq] at h
                exact Or.inr (Or.inl ⟨h.symm, h200⟩)

/-! ## A report answered 200 is followed by its evaluate call -/

theorem followed_nil : ReportFollowedByEvaluate [] := by
  intro pre rreq post h
  simp at h

theorem followed_append {a b : List Event} (ha : ReportFollowedByEvaluate a)
    (hb : ReportFollowedByEvaluate b) : ReportFollowedByEvaluate (a ++ b) := by
  intro pre rreq post h
  rcases List.append_eq_append_iff.1 h with ⟨a1, _, hb1⟩ | ⟨c1, ha1, hc⟩
  · exact hb a1 rreq post hb1
  · cases c1 with
    | nil => exact hb [] rreq post (by simpa using hc.symm)
    | cons x c2 =>
      simp only [List.cons_append, List.cons.injEq] at hc
      obtain ⟨hx, hpost⟩ := hc
      obtain ⟨ereq, r, post1, h1, h2⟩ := ha pre rreq c2 (by rw [ha1, ← hx])
      exact ⟨ereq, r, post1 ++ b, by rw [hpost, h1]; rfl, h2⟩

theorem followed_sleep (d : Int) : ReportFollowedByEvaluate [Event.sleep d] := by
  intro pre rreq post h
  rcases pre with _ | ⟨a, _ | ⟨b, pre⟩⟩ <;> simp at h

theorem followed_report (d : Int) (req : PartnerExtraReportReq) (r0 : Option Int)
    (hr : r0 ≠ some 200) :
    ReportFollowedByEvaluate [Event.sleep d, Event.partnerExtraReport req r0] := by
  intro pre rreq post h
  rcases pre with _ | ⟨a, _ | ⟨b, _ | ⟨c, pre⟩⟩⟩ <;> simp at h
  exact absurd h.2.1.2 hr

theorem followed_evaluate (d : Int) (req : PartnerExtraReportReq) (ereq : PartnerEvaluateReq)
    (r0 : Option Int) (hid : req.WorkId = ereq.WorkId) :
    ReportFollowedByEvaluate
      [Event.sleep d, Event.partnerExtraReport req (some 200), Event.partnerEvaluate ereq r0] := by
  intro pre rreq post h
  rcases pre with _ | ⟨a, _ | ⟨b, _ | ⟨c, _ | ⟨e, pre⟩⟩⟩⟩ <;> simp at h
  obtain ⟨_, hreq, hpost⟩ := h
  exact ⟨ereq, r0, [], hpost.symm, by rw [← hreq]; exact hid.symm⟩

/-- In the trace of the extra loop every report call answered 200 is followed at
once by an evaluate call for the same work id. -/
theorem extraLoop_followed (tagsGroup : Int → List String) (env : Remote) (opts : PartnerOpts)
    (taskId : Int) (works : List PartnerWork) (s : ExtraState) :
    ReportFollowedByEvaluate (extraLoop tagsGroup env opts taskId s works).1 := by
  induction works generalizing s with
  | nil => exact followed_nil
  | cons w rest ih =>
    rcases extraStep_shape tagsGroup env opts taskId s w with
      ⟨_, h⟩ | ⟨_, _, d, h⟩ | ⟨_, _, d, req, _, h⟩ | ⟨_, d, req, code, _, _, hne, h⟩ |
      ⟨_, _, _, d, req, ereq, h1, h2, h⟩ | ⟨_, _, d, req, ereq, ecode, h1, h2, _, h⟩
    · rw [extraLoop_cons_next rest h]
      exact followed_append followed_nil (ih _)
    · rw [extraLoop_cons_panic rest h]
      exact followed_sleep d
    · rw [extraLoop_cons_fail rest h]
      exact followed_report d req none (by simp)
    · rw [extraLoop_cons_next rest h]
      exact followed_append (followed_report d req _ (by simpa using hne)) (ih _)
    · rw [extraLoop_cons_fail rest h]
      exact followed_evaluate d req ereq none (by rw [h1, h2])
    · rcases extraFlow_next_or_stop s ecode with ⟨s1, hf⟩ | ⟨s1, hf⟩
      · rw [hf] at h
        rw [extraLoop_cons_next rest h]
        exact followed_append (followed_evaluate d req ereq _ (by rw [h1, h2])) (ih _)
      · rw [hf] at h
        rw [extraLoop_cons_stop rest h]
        exact followed_evaluate d req ereq _ (by rw [h1, h2])

/-! ## The calls of a run receive the answers of the environment, in order -/

theorem evaluateAnswers_append (a b : List Event) :
    evaluateAnswers (a ++ b) = evaluateAnswers a ++ evaluateAnswers b := by
  simp [evaluateAnswers]

theorem reportAnswers_append (a b : List Event) :
    reportAnswers (a ++ b) = reportAnswers a ++ reportAnswers b := by
  simp [reportAnswers]

/-- The evaluate calls of the daily loop receive the answers
`partnerEvaluate c.evaluate`, `partnerEvaluate (c.evaluate + 1)`, ... in order, and
the loop makes no report call. -/
theorem dailyLoop_answers (tagsGroup : Int → List String) (env : Remote) (opts : PartnerOpts)
    (taskId : Int) (works : List PartnerWork) (c : Cursor) :
    ∃ k, evaluateAnswers (dailyLoop tagsGroup env opts taskId c works).1 =
        (List.range' c.evaluate k).map env.partnerEvaluate ∧
      reportAnswers (dailyLoop tagsGroup env opts taskId c works).1 = [] ∧
      ∀ c1, (dailyLoop tagsGroup env opts taskId c works).2 = Flow.next c1 →
        c1.evaluate = c.evaluate + k ∧ c1.report = c.report := by
  induction works generalizing c with
  | nil =>
    refine ⟨0, rfl, rfl, ?_⟩
    intro c1 h
    simp only [dailyLoop, Flow.next.injEq] at h
    rw [← h]
    exact ⟨rfl, rfl⟩
  | cons w rest ih =>
    rcases dailyStep_shape tagsGroup env opts taskId c w with
      ⟨_, h⟩ | ⟨_, _, d, h⟩ | ⟨_, he, d, req, _, h⟩ | ⟨_, d, req, code, _, he, h⟩
    · rw [dailyLoop_cons_next rest h]
      obtain ⟨k, a, b, e⟩ := ih c
      exact ⟨k, by simpa using a, by simpa using b, e⟩
    · rw [dailyLoop_cons_panic rest h]
      refine ⟨0, rfl, rfl, ?_⟩
      intro c1 h1
      simp at h1
    · rw [dailyLoop_cons_fail rest h]
      refine ⟨1, ?_, rfl, ?_⟩
      · simp [evaluateAnswers, he]
      · intro c1 h1
        simp at h1
    · rw [dailyLoop_cons_next rest h]
      obtain ⟨k, a, b, e⟩ := ih c.afterDaily
      refine ⟨k + 1, ?_, ?_, ?_⟩
      · simp only
        rw [evaluateAnswers_append, a, List.range'_succ, List.map_cons, he]
        rfl
      · simp only
        rw [reportAnswers_append, b]
        rfl
      · intro c1 h1
        obtain ⟨e1, e2⟩ := e c1 h1
        simp only [Cursor.afterDaily] at e1 e2
        exact ⟨by omega, e2⟩

/-- The report and evaluate calls of the extra loop receive the answers of the
environment from the cursor on, in order. -/
theorem extraLoop_answers (tagsGroup : Int → List String) (env : Remote) (opts : PartnerOpts)
    (taskId : Int) (works : List PartnerWork) (s : ExtraState) :
    ∃ ke kr, evaluateAnswers (extraLoop tagsGroup env opts taskId s works).1 =
        (List.range' s.cur.evaluate ke).map env.partnerEvaluate ∧
      reportAnswers (extraLoop tagsGroup env opts taskId s works).1 =
        (List.range' s.cur.report kr).map env.partnerExtraReport ∧
      ∀ s1, (extraLoop tagsGroup env opts taskId s works).2 = Flow.next s1 →
        s1.cur.evaluate = s.cur.evaluate + ke ∧ s1.cur.report = s.cur.report + kr := by
  induction works generalizing s with
  | nil =>
    refine ⟨0, 0, rfl, rfl, ?_⟩
    intro s1 h
    simp only [extraLoop, Flow.next.injEq] at h
    rw [← h]
    exact ⟨rfl, rfl⟩
  | cons w rest ih =>
    rcases extraStep_shape tagsGroup env opts taskId s w with
      ⟨_, h⟩ | ⟨_, _, d, h⟩ | ⟨_, hr, d, req, _, h⟩ | ⟨_, d, req, code, _, hr, _, h⟩ |
      ⟨_, hr, he, d, req, ereq, _, _, h⟩ | ⟨_, hr, d, req, ereq, ecode, _, _, he, h⟩
    · rw [extraLoop_cons_next rest h]
      obtain ⟨ke, kr, a, b, e⟩ := ih s
      exact ⟨ke, kr, by simpa using a, by simpa using b, e⟩
    · rw [extraLoop_cons_panic rest h]
      refine ⟨0, 0, rfl, rfl, ?_⟩
      intro s1 h1
      simp at h1
    · rw [extraLoop_cons_fail rest h]
      refine ⟨0, 1, rfl, ?_, ?_⟩
      · simp [reportAnswers, hr]
      · intro s1 h1
        simp at h1
    · rw [extraLoop_cons_next rest h]
      obtain ⟨ke, kr, a, b, e⟩ := ih { cur := s.cur.afterReport, extraNum := s.extraNum }
      refine ⟨ke, kr + 1, ?_, ?_, ?_⟩
      · simp only
        rw [evaluateAnswers_append, a]
        rfl
      · simp only
        rw [reportAnswers_append, b, List.range'_succ, List.map_cons, hr]
        rfl
      · intro s1 h1
        obtain ⟨e1, e2⟩ := e s1 h1
        simp only [Cursor.afterReport] at e1 e2
        exact ⟨e1, by omega⟩
    · rw [extraLoop_cons_fail rest h]
      refine ⟨1, 1, ?_, ?_, ?_⟩
      · simp [evaluateAnswers, he]
      · simp [reportAnswers, hr]
      · intro s1 h1
        simp at h1
    · rcases extraFlow_next_or_stop s ecode with ⟨s2, hf⟩ | ⟨s2, hf⟩
      · have hcur : s2.cur = s.cur.afterExtra := by
          unfold extraFlow at hf
          split at hf
          · split at hf
            · simp at hf
            · simp only [Flow.next.injEq] at hf
              rw [← hf]
          · simp only [Flow.next.injEq] at hf
            rw [← hf]
        rw [hf] at h
        rw [extraLoop_cons_next rest h]
        obtain ⟨ke, kr, a, b, e⟩ := ih s2
        refine ⟨ke + 1, kr + 1, ?_, ?_, ?_⟩
        · simp only
          rw [evaluateAnswers_append, a, hcur, List.range'_succ, List.map_cons, he]
          rfl
        · simp only
          rw [reportAnswers_append, b, hcur, List.range'_succ, List.map_cons, hr]
          rfl
        · intro s1 h1
          obtain ⟨e1, e2⟩ := e s1 h1
          rw [hcur] at e1 e2
          simp only [Cursor.afterExtra] at e1 e2
          exact ⟨by omega, by omega⟩
      · rw [hf] at h
        rw [extraLoop_cons_stop rest h]
        refine ⟨1, 1, ?_, ?_, ?_⟩
        · simp [evaluateAnswers, he]
        · simp [reportAnswers, hr]
        · intro s1 h1
          simp at h1

/-- After the daily fetch the evaluate calls of the run receive the answers
`partnerEvaluate 0`, `partnerEvaluate 1`, ... and its report calls the answers
`partnerExtraReport 0`, `partnerExtraReport 1`, ... in order. -/
theorem afterDailyFetch_answers (tagsGroup : Int → List String) (env : Remote)
    (opts : PartnerOpts) (task : PartnerTaskData) :
    ∃ ke kr,
      evaluateAnswers (afterDailyFetch tagsGroup env opts task).1 =
        (List.range ke).map env.partnerEvaluate ∧
      reportAnswers (afterDailyFetch tagsGroup env opts task).1 =
        (List.range kr).map env.partnerExtraReport := by
  rw [afterDailyFetch_eq]
  obtain ⟨k, a, b, e⟩ := dailyLoop_answers tagsGroup env opts task.Id task.Works Cursor.start
  have hd := dailyLoop_flow tagsGroup env opts task.Id task.Works Cursor.start
  have hstart : Cursor.start.evaluate = 0 := rfl
  rw [hstart] at a
  revert e hd
  cases (dailyLoop tagsGroup env opts task.Id Cursor.start task.Works).2 with
  | next c1 =>
    intro e _
    obtain ⟨e1, e2⟩ := e c1 rfl
    have e1' : c1.evaluate = k := by rw [e1, hstart]; omega
    have e2' : c1.report = 0 := by rw [e2]; rfl
    simp only
    cases hx : env.partnerExtraTask with
    | none =>
      rw [extraPhase_fetch_error _ _ _ _ _ hx]
      refine ⟨k, 0, ?_, ?_⟩
      · rw [evaluateAnswers_append, a, List.range_eq_range']
        simp [evaluateAnswers]
      · rw [reportAnswers_append, b]
        simp [reportAnswers]
    | some extra =>
      rw [extraPhase_fetched _ _ _ _ _ extra hx]
      obtain ⟨ke, kr, x, y, _⟩ :=
        extraLoop_answers tagsGroup env opts task.Id extra (extraStart env c1)
      have hxe : (extraStart env c1).cur.evaluate = k := by simp [extraStart, e1']
      have hxr : (extraStart env c1).cur.report = 0 := by simp [extraStart, e2']
      rw [hxe] at x
      rw [hxr] at y
      have hev : ∀ t : List Event, evaluateAnswers (Event.partnerExtraTask (some extra) :: t ++
          (if (extraLoop tagsGroup env opts task.Id (extraStart env c1) extra).2.finished
            then [Event.tokenRefresh env.tokenRefresh] else [])) = evaluateAnswers t := by
        intro t
        split <;> simp [evaluateAnswers]
      have hrp : ∀ t : List Event, reportAnswers (Event.partnerExtraTask (some extra) :: t ++
          (if (extraLoop tagsGroup env opts task.Id (extraStart env c1) extra).2.finished
            then [Event.tokenRefresh env.tokenRefresh] else [])) = reportAnswers t := by
        intro t
        split <;> simp [reportAnswers]
      refine ⟨ke + k, kr, ?_, ?_⟩
      · simp only
        rw [evaluateAnswers_append, hev, a, x, ← List.map_append, List.range_eq_range']
        congr 1
        have := List.range'_append_1 0 k ke
        simpa using this
      · simp only
        rw [reportAnswers_append, hrp, b, y, List.range_eq_range']
        rfl
  | stop c1 => intro _ hd; exact absurd hd id
  | fail e1 =>
    intro _ _
    exact ⟨k, 0, by rw [a, List.range_eq_range'], by rw [b]; rfl⟩
  | panic =>
    intro _ _
    exact ⟨k, 0, by rw [a, List.range_eq_range'], by rw [b]; rfl⟩
/-! ## The claims -/

/-- C1: `Partner.validate` returns no error for every list of 1 to 5 pairwise-distinct
ratings drawn from [1,5], and returns an error for every list that is empty, has
more than 5 entries, or contains a duplicate (`utils.IsUnique` being true exactly
for duplicate-free lists). -/
theorem validate_contract (opts : PartnerOpts) :
    (1 ≤ opts.Star.length → opts.Star.length ≤ 5 → opts.Star.Nodup →
      (∀ s ∈ opts.Star, 1 ≤ s ∧ s ≤ 5) → Partner.validate opts = none) ∧
    (opts.Star = [] ∨ 5 < opts.Star.length ∨ ¬ opts.Star.Nodup →
      ∃ e, Partner.validate opts = some e) := by
  constructor
  · intro h1 h5 hn _
    exact (validate_none_iff opts).2 ⟨h1, h5, hn⟩
  · intro h
    cases hv : Partner.validate opts with
    | some e => exact ⟨e, rfl⟩
    | none =>
      obtain ⟨h1, h5, hn⟩ := (validate_none_iff opts).1 hv
      rcases h with h | h | h
      · rw [h] at h1; simp at h1
      · omega
      · exact absurd hn h

theorem validate_contract_witness :
    Partner.validate { Star := [3, 4] } = none ∧
      ∃ e, Partner.validate { Star := [2, 2] } = some e :=
  ⟨(validate_contract { Star := [3, 4] }).1 (by decide) (by decide) (by decide) (by decide),
    (validate_contract { Star := [2, 2] }).2 (Or.inr (Or.inr (by decide)))⟩

/-- C2: the eligibility gate of `Partner.do`. For a logged-in session whose status
query answers `(code, status)` without a call error, the run goes on to fetch the
daily batch if and only if `code = 200` and the status is not "ELIMINATED"; it
stops with the not-a-partner error exactly when `code = 703`; for every other code
different from 200 it stops with the status-query-failed error; for code 200 with
status "ELIMINATED" it stops with the ineligible error. -/
theorem eligibility_gate (tagsGroup : Int → List String) (env : Remote) (opts : PartnerOpts)
    (info : PartnerUserinfoResp) (hc : env.newClient = true) (hl : env.needLogin = false)
    (hi : env.partnerUserinfo = some info) :
    ((∃ r, Event.partnerDailyTask r ∈ (Partner.do_ tagsGroup env opts).1) ↔
      (info.Code = 200 ∧ info.Status ≠ "ELIMINATED")) ∧
    ((Partner.do_ tagsGroup env opts).2 = Outcome.error RunError.notPartner ↔
      info.Code = 703) ∧
    (info.Code ≠ 200 → info.Code ≠ 703 →
      (Partner.do_ tagsGroup env opts).2 = Outcome.error (RunError.userinfoCode info.Code)) ∧
    (info.Code = 200 → info.Status = "ELIMINATED" →
      (Partner.do_ tagsGroup env opts).2 = Outcome.error RunError.eliminated) := by
  have hdo : Partner.do_ tagsGroup env opts =
      (Event.newClient true :: (withClient tagsGroup env opts).1 ++ [Event.close],
        (withClient tagsGroup env opts).2) := by
    unfold Partner.do_
    rw [if_pos hc]
  rw [hdo]
  by_cases hp : info.Code = 200 ∧ info.Status ≠ "ELIMINATED"
  · obtain ⟨h200, hst⟩ := hp
    have h703 : info.Code ≠ 703 := by rw [h200]; decide
    rw [withClient_passed tagsGroup env opts info hl hi h200 hst]
    refine ⟨?_, ?_, ?_, ?_⟩
    · refine ⟨fun _ => ⟨h200, hst⟩, fun _ => ?_⟩
      cases env.partnerDailyTask with
      | none => exact ⟨none, by simp⟩
      | some task => exact ⟨some task, by simp⟩
    · refine ⟨fun h => ?_, fun h => absurd h h703⟩
      exfalso
      revert h
      cases env.partnerDailyTask with
      | none => simp
      | some task =>
        intro h
        rcases afterDailyFetch_error tagsGroup env opts task _ h with h | h | h <;> cases h
    · intro h; exact absurd h200 h
    · intro _ h; exact absurd h hst
  · rw [withClient_stopped tagsGroup env opts info hl hi hp]
    refine ⟨?_, ?_, ?_, ?_⟩
    · refine ⟨fun h => ?_, fun h => absurd h hp⟩
      obtain ⟨r, hr⟩ := h
      simp at hr
    · by_cases h703 : info.Code = 703
      · simp [h703]
      · by_cases h200 : info.Code = 200
        · simp [h703, h200]
        · simp [h703, h200]
    · intro h200 h703
      simp [h703, h200]
    · intro h200 _
      have h703 : info.Code ≠ 703 := by rw [h200]; decide
      simp [h703, h200]

theorem eligibility_gate_witness :
    (Partner.do_ sampleTagsGroup
        { sampleRemote [] [] always200 always200 with
          partnerUserinfo := some { Code := 703, Status := "NORMAL" } }
        { Star := [3, 4] }).2 = Outcome.error RunError.notPartner ∧
    ∃ r, Event.partnerDailyTask r ∈
      (Partner.do_ sampleTagsGroup (sampleRemote [] [] always200 always200)
        { Star := [3, 4] }).1 :=
  ⟨(eligibility_gate sampleTagsGroup
      { sampleRemote [] [] always200 always200 with
        partnerUserinfo := some { Code := 703, Status := "NORMAL" } }
      { Star := [3, 4] } { Code := 703, Status := "NORMAL" } rfl rfl rfl).2.1.2 rfl,
    (eligibility_gate sampleTagsGroup (sampleRemote [] [] always200 always200)
      { Star := [3, 4] } { Code := 200, Status := "NORMAL" } rfl rfl rfl).1.2
      ⟨rfl, by decide⟩⟩

/-- C3: the daily batch loop of `Partner.do`, on configurations that `validate`
accepts. On the example of the claim (ratings 3 and 4, five non-completed items,
code 405 on the third) the loop runs to its end with five delays and five
evaluate calls, in batch order. With the accepted rating list `[7]`, which has no
tag group, the loop panics at the tag draw of the first non-completed item, after
one delay: neither of the two non-completed items gets an evaluate call, in the
loop alone and in the whole run. -/
theorem daily_loop_on_accepted_ratings :
    (dailyLoop sampleTagsGroup (sampleRemote [] [] thirdIs405 always200) { Star := [3, 4] } 1
        Cursor.start
        [sampleWork 11 false, sampleWork 12 false, sampleWork 13 false, sampleWork 14 false,
          sampleWork 15 false]).2 =
      Flow.next { rand := 15, evaluate := 5, report := 0 } ∧
    (dailyLoop sampleTagsGroup (sampleRemote [] [] thirdIs405 always200) { Star := [3, 4] } 1
        Cursor.start
        [sampleWork 11 false, sampleWork 12 false, sampleWork 13 false, sampleWork 14 false,
          sampleWork 15 false]).1.map Event.action =
      [Action.delay, Action.evaluate 11, Action.delay, Action.evaluate 12,
        Action.delay, Action.evaluate 13, Action.delay, Action.evaluate 14,
        Action.delay, Action.evaluate 15] ∧
    Partner.validate { Star := [7] } = none ∧
    dailyLoop sampleTagsGroup (sampleRemote [] [] always200 always200) { Star := [7] } 1
        Cursor.start [sampleWork 11 false, sampleWork 12 false] =
      ([Event.sleep 15], Flow.panic) ∧
    Partner.execute sampleTagsGroup
        (sampleRemote [sampleWork 11 false, sampleWork 12 false] [] always200 always200)
        { Star := [7] } =
      ([Event.newClient true, Event.needLogin false,
        Event.partnerUserinfo (some { Code := 200, Status := "NORMAL" }),
        Event.partnerDailyTask
          (some { Id := 1, Works := [sampleWork 11 false, sampleWork 12 false] }),
        Event.sleep 15, Event.close], Outcome.panic) := by
  decide

/-- C4: the extra batch loop of `Partner.do`, on configurations that `validate`
accepts. On the example of the claim (ratings 3 and 4, quota 3, seven
non-completed items, every report answered 200, evaluate answers 200, 200, 405,
200) the loop leaves through `goto end` after the fourth item and the last three
items get no delay, no report and no evaluate call. With the accepted rating
list `[7]`, which has no tag group, the loop panics at the tag draw of the first
non-completed item, after one delay: no evaluate answer 200 was received, fewer
than the quota, and yet no non-completed item gets its report call, in the loop
alone and in the whole run. -/
theorem extra_loop_on_accepted_ratings :
    (extraLoop sampleTagsGroup (sampleRemote [] [] thirdIs405 always200)
        { Star := [3, 4] } 1 ⟨Cursor.start, 3⟩
        ((List.range 7).map (fun i => sampleWork (21 + i) false))).2 =
      Flow.stop { cur := { rand := 12, evaluate := 4, report := 4 }, extraNum := 0 } ∧
    (extraLoop sampleTagsGroup (sampleRemote [] [] thirdIs405 always200)
        { Star := [3, 4] } 1 ⟨Cursor.start, 3⟩
        ((List.range 7).map (fun i => sampleWork (21 + i) false))).1.map Event.action =
      [Action.delay, Action.report 21, Action.evaluate 21,
        Action.delay, Action.report 22, Action.evaluate 22,
        Action.delay, Action.report 23, Action.evaluate 23,
        Action.delay, Action.report 24, Action.evaluate 24] ∧
    Partner.validate { Star := [7] } = none ∧
    extraLoop sampleTagsGroup (sampleRemote [] [] always200 always200) { Star := [7] } 1
        ⟨Cursor.start, 3⟩ ((List.range 7).map (fun i => sampleWork (21 + i) false)) =
      ([Event.sleep 15], Flow.panic) ∧
    Partner.execute sampleTagsGroup
        (sampleRemote [] [sampleWork 21 false, sampleWork 22 false] always200 always200)
        { Star := [7] } =
      ([Event.newClient true, Event.needLogin false,
        Event.partnerUserinfo (some { Code := 200, Status := "NORMAL" }),
        Event.partnerDailyTask (some { Id := 1, Works := [] }),
        Event.partnerExtraTask (some [sampleWork 21 false, sampleWork 22 false]),
        Event.sleep 15, Event.close], Outcome.panic) := by
  decide

/-- C5: the report gate of the extra batch loop. For a non-completed extra item
whose play-end report is answered with a code other than 200 (valid
configuration, ratings with tag groups), the loop body issues the delay and the
report call and no evaluate call, leaves the remaining quota unchanged, and the
loop goes on with the next item. Conversely every evaluate call in the trace of
the extra loop comes right after a report call for the same work id that was
answered 200. -/
theorem extra_report_gate (tagsGroup : Int → List String) (env : Remote) (opts : PartnerOpts)
    (taskId : Int) :
    (∀ (s : ExtraState) (w : PartnerWork) (code : Int) (rest : List PartnerWork),
      Partner.validate opts = none → TagsAvailable tagsGroup opts →
      w.Completed = false → env.partnerExtraReport s.cur.report = some code → code ≠ 200 →
      ∃ d req, req.WorkId = w.Work.Id ∧
        extraStep tagsGroup env opts taskId s w =
          ([Event.sleep d, Event.partnerExtraReport req (some code)],
            Flow.next { cur := s.cur.afterReport, extraNum := s.extraNum }) ∧
        extraLoop tagsGroup env opts taskId s (w :: rest) =
          ([Event.sleep d, Event.partnerExtraReport req (some code)] ++
            (extraLoop tagsGroup env opts taskId
              { cur := s.cur.afterReport, extraNum := s.extraNum } rest).1,
            (extraLoop tagsGroup env opts taskId
              { cur := s.cur.afterReport, extraNum := s.extraNum } rest).2)) ∧
    (∀ (works : List PartnerWork) (s : ExtraState),
      EvaluateFollowsReport (extraLoop tagsGroup env opts taskId s works).1) := by
  refine ⟨?_, fun works s => extraLoop_follows tagsGroup env opts taskId works s⟩
  intro s w code rest hv ht hw hr hcode
  rcases extraStep_shape tagsGroup env opts taskId s w with
    ⟨hw1, _⟩ | ⟨_, hp, _⟩ | ⟨_, hn, _⟩ | ⟨_, d, req, code1, hid, hr1, _, h⟩ |
    ⟨_, hr1, _⟩ | ⟨_, hr1, _⟩
  · rw [hw] at hw1; exact absurd hw1 (by simp)
  · obtain ⟨star, tags, hs, _⟩ := pickStarTags_some tagsGroup env opts (s.cur.rand + 1) hv ht
    rw [hs] at hp
    exact absurd hp (by simp)
  · rw [hr] at hn; exact absurd hn (by simp)
  · rw [hr] at hr1
    simp only [Option.some.injEq] at hr1
    subst hr1
    exact ⟨d, req, hid, h, extraLoop_cons_next rest h⟩
  · rw [hr] at hr1
    simp only [Option.some.injEq] at hr1
    exact absurd hr1 hcode
  · rw [hr] at hr1
    simp only [Option.some.injEq] at hr1
    exact absurd hr1 hcode

theorem extra_report_gate_witness :
    ∃ d req, req.WorkId = 21 ∧
      extraStep sampleTagsGroup (sampleRemote [] [] always200 (fun _ => some 500))
          { Star := [3, 4] } 1 ⟨Cursor.start, 3⟩ (sampleWork 21 false) =
        ([Event.sleep d, Event.partnerExtraReport req (some 500)],
          Flow.next { cur := Cursor.start.afterReport, extraNum := 3 }) :=
  match (extra_report_gate sampleTagsGroup (sampleRemote [] [] always200 (fun _ => some 500))
      { Star := [3, 4] } 1).1 ⟨Cursor.start, 3⟩ (sampleWork 21 false) 500 []
      (by decide) sampleTags_available rfl rfl (by decide) with
  | ⟨d, req, hid, hstep, _⟩ => ⟨d, req, hid, hstep⟩

/-- C6: rating range and tag selection. `Partner.validate` accepts the rating list
`[7]`, which is outside [1,5]; with a tag table that has entries for the ratings 1
to 5 only, the run then panics at the tag draw of the first non-completed item
(`rand.Int31n` is called with 0), after the delay and before any evaluate call. -/
theorem validate_accepts_rating_without_tags :
    Partner.validate { Star := [7] } = none ∧
    sampleTagsGroup 7 = [] ∧
    Partner.execute sampleTagsGroup
        (sampleRemote [sampleWork 11 false] [] always200 always200) { Star := [7] } =
      ([Event.newClient true, Event.needLogin false,
        Event.partnerUserinfo (some { Code := 200, Status := "NORMAL" }),
        Event.partnerDailyTask (some { Id := 1, Works := [sampleWork 11 false] }),
        Event.sleep 15, Event.close], Outcome.panic) := by
  decide

/-- C7 as stated fails: with the gate passed and both batches fetched, an error
returned by the report call of the first extra item makes the run return an
error, and the second extra item is not processed. -/
theorem call_error_stops_run :
    Partner.execute sampleTagsGroup
        (sampleRemote [] [sampleWork 21 false, sampleWork 22 false] always200 alwaysError)
        { Star := [3, 4] } =
      ([Event.newClient true, Event.needLogin false,
        Event.partnerUserinfo (some { Code := 200, Status := "NORMAL" }),
        Event.partnerDailyTask (some { Id := 1, Works := [] }),
        Event.partnerExtraTask (some [sampleWork 21 false, sampleWork 22 false]),
        Event.sleep 15,
        Event.partnerExtraReport
          { WorkId := 21, ResourceId := 121, BizResourceId := "", InteractType := "PLAY_END" }
          none,
        Event.close], Outcome.error RunError.partnerExtraReport) := by
  decide

/-- C7 amended: per-item containment of response codes. With a valid configuration
whose ratings have tag groups, once the eligibility gate has passed and both
batches are fetched, the run does not panic and takes one of three courses.
(1) No report or evaluate call fails: the run returns no error; every
non-completed daily item gets its delay and its evaluate call; the extra loop
visits the items in batch order and either visits every non-completed one, with
fewer evaluate answers 200 than the quota, or ends right after the evaluate
answer 200 that uses up the quota; the token refresh and the close follow.
(2) An evaluate call of the daily loop fails: that call is the last event before
the close and the only failed one, the items before it were processed, and the
run returns the evaluate error. (3) A report or evaluate call of the extra loop
fails: the daily batch was processed in full, the failed call is the last event
before the close and the only failed one, and the run returns the error of that
call. The quota is `2 + rand.Int31n(6)`, drawn after the daily loop. In the
extra loop an evaluate call is issued exactly after a report call answered 200,
for the same work id, and the calls of the run receive the answers of the
environment in order. In the loops themselves a failed call ends the loop at
its item with the error of that call, whatever items follow. For every run,
whatever the configuration: an error is
returned only for an invalid configuration, a client that cannot be created, a
session that is not logged in, a failed status query, status code 703 (not a
partner), another status code than 200, status "ELIMINATED" (ineligible), a
failed batch fetch, or a failed report or evaluate call. -/
theorem response_codes_are_contained (tagsGroup : Int → List String) (env : Remote)
    (opts : PartnerOpts) :
    (∀ e, (Partner.execute tagsGroup env opts).2 = Outcome.error e →
      Partner.validate opts = some e ∨
      (e = RunError.newClient ∧ env.newClient = false) ∨
      (e = RunError.needLogin ∧ env.needLogin = true) ∨
      (e = RunError.partnerUserinfo ∧ env.partnerUserinfo = none) ∨
      (∃ info, env.partnerUserinfo = some info ∧
        ((e = RunError.notPartner ∧ info.Code = 703) ∨
          (e = RunError.userinfoCode info.Code ∧ info.Code ≠ 200) ∨
          (e = RunError.eliminated ∧ info.Status = "ELIMINATED"))) ∨
      (e = RunError.partnerDailyTask ∧ env.partnerDailyTask = none) ∨
      (e = RunError.partnerExtraTask ∧ env.partnerExtraTask = none) ∨
      ((e = RunError.partnerEvaluate ∨ e = RunError.partnerExtraReport) ∧
        ∃ ev ∈ (Partner.execute tagsGroup env opts).1, ev.callFailed = true)) ∧
    ∀ (info : PartnerUserinfoResp) (task : PartnerTaskData) (extra : List PartnerWork),
    Partner.validate opts = none → TagsAvailable tagsGroup opts →
    env.newClient = true → env.needLogin = false →
    env.partnerUserinfo = some info → info.Code = 200 →
    info.Status ≠ "ELIMINATED" → env.partnerDailyTask = some task →
    env.partnerExtraTask = some extra →
    (Partner.execute tagsGroup env opts).2 ≠ Outcome.panic ∧
    ((Partner.execute tagsGroup env opts).2 = Outcome.ok ↔
      ∀ ev ∈ (Partner.execute tagsGroup env opts).1, ev.callFailed = false) ∧
    (∀ e, (Partner.execute tagsGroup env opts).2 = Outcome.error e →
      e = RunError.partnerEvaluate ∨ e = RunError.partnerExtraReport) ∧
    ((∀ k, env.partnerEvaluate k ≠ none) → (∀ k, env.partnerExtraReport k ≠ none) →
      ∃ t1 t2, Partner.execute tagsGroup env opts =
          ([Event.newClient true, Event.needLogin false, Event.partnerUserinfo (some info),
            Event.partnerDailyTask (some task)] ++ t1 ++
            Event.partnerExtraTask (some extra) :: t2 ++
            [Event.tokenRefresh env.tokenRefresh, Event.close], Outcome.ok) ∧
        t1.map Event.action =
          (task.Works.filter (fun w => !w.Completed)).flatMap
            (fun w => [Action.delay, Action.evaluate w.Work.Id]) ∧
        ((t2.map Event.action).filter (fun a => !a.isEvaluate) =
            (extra.filter (fun w => !w.Completed)).flatMap
              (fun w => [Action.delay, Action.report w.Work.Id]) ∨
          ∃ pre req, t2 = pre ++ [Event.partnerEvaluate req (some 200)])) ∧
    ((∃ t1 t2, Partner.execute tagsGroup env opts =
          ([Event.newClient true, Event.needLogin false, Event.partnerUserinfo (some info),
            Event.partnerDailyTask (some task)] ++ t1 ++
            Event.partnerExtraTask (some extra) :: t2 ++
            [Event.tokenRefresh env.tokenRefresh, Event.close], Outcome.ok) ∧
        (∀ ev ∈ t1, ev.callFailed = false) ∧ (∀ ev ∈ t2, ev.callFailed = false) ∧
        t1.map Event.action = dailyCalls task.Works ∧
        EvaluateFollowsReport t2 ∧ ReportFollowedByEvaluate t2 ∧
        ((visits t2 = extraVisits extra ∧
            ((t2.countP Event.accepted : Nat) : Int) <
              2 + ((env.rand (3 * (task.Works.filter (fun w => !w.Completed)).length) : Nat)
                : Int) % 6) ∨
          (∃ n pre req, visits t2 = extraVisits (extra.take n) ∧
            ((t2.countP Event.accepted : Nat) : Int) =
              2 + ((env.rand (3 * (task.Works.filter (fun w => !w.Completed)).length) : Nat)
                : Int) % 6 ∧
            t2 = pre ++ [Event.partnerEvaluate req (some 200)]))) ∨
      (∃ t1 pre req n, Partner.execute tagsGroup env opts =
          ([Event.newClient true, Event.needLogin false, Event.partnerUserinfo (some info),
            Event.partnerDailyTask (some task)] ++ t1 ++ [Event.close],
            Outcome.error RunError.partnerEvaluate) ∧
        t1 = pre ++ [Event.partnerEvaluate req none] ∧
        (∀ ev ∈ pre, ev.callFailed = false) ∧
        t1.map Event.action = dailyCalls (task.Works.take n)) ∨
      (∃ t1 t2 pre ev e n, Partner.execute tagsGroup env opts =
          ([Event.newClient true, Event.needLogin false, Event.partnerUserinfo (some info),
            Event.partnerDailyTask (some task)] ++ t1 ++
            Event.partnerExtraTask (some extra) :: t2 ++ [Event.close], Outcome.error e) ∧
        (∀ x ∈ t1, x.callFailed = false) ∧
        t1.map Event.action = dailyCalls task.Works ∧
        t2 = pre ++ [ev] ∧ ev.callError = some e ∧
        (∀ x ∈ pre, x.callFailed = false) ∧
        EvaluateFollowsReport t2 ∧ ReportFollowedByEvaluate t2 ∧
        visits t2 = extraVisits (extra.take n) ∧
        ((t2.countP Event.accepted : Nat) : Int) <
          2 + ((env.rand (3 * (task.Works.filter (fun w => !w.Completed)).length) : Nat)
            : Int) % 6)) ∧
    (∃ ke kr,
      evaluateAnswers (Partner.execute tagsGroup env opts).1 =
        (List.range ke).map env.partnerEvaluate ∧
      reportAnswers (Partner.execute tagsGroup env opts).1 =
        (List.range kr).map env.partnerExtraReport) ∧
    (∀ (c : Cursor) (w : PartnerWork) (rest : List PartnerWork), w.Completed = false →
      env.partnerEvaluate c.evaluate = none →
      ∃ d req, dailyLoop tagsGroup env opts task.Id c (w :: rest) =
        ([Event.sleep d, Event.partnerEvaluate req none],
          Flow.fail RunError.partnerEvaluate)) ∧
    (∀ (s : ExtraState) (w : PartnerWork) (rest : List PartnerWork), w.Completed = false →
      env.partnerExtraReport s.cur.report = none →
      ∃ d req, extraLoop tagsGroup env opts task.Id s (w :: rest) =
        ([Event.sleep d, Event.partnerExtraReport req none],
          Flow.fail RunError.partnerExtraReport)) ∧
    (∀ (s : ExtraState) (w : PartnerWork) (rest : List PartnerWork), w.Completed = false →
      env.partnerExtraReport s.cur.report = some 200 →
      env.partnerEvaluate s.cur.evaluate = none →
      ∃ d req ereq, extraLoop tagsGroup env opts task.Id s (w :: rest) =
        ([Event.sleep d, Event.partnerExtraReport req (some 200),
          Event.partnerEvaluate ereq none], Flow.fail RunError.partnerEvaluate)) := by
  refine ⟨fun e he => execute_error_cause tagsGroup env opts e he, ?_⟩
  intro info task extra hv ht hc hl hi h200 hst hd hx
  have hrun : Partner.execute tagsGroup env opts =
      (Event.newClient true :: Event.needLogin false :: Event.partnerUserinfo (some info) ::
        Event.partnerDailyTask (some task) ::
        (afterDailyFetch tagsGroup env opts task).1 ++ [Event.close],
        (afterDailyFetch tagsGroup env opts task).2) := by
    unfold Partner.execute Partner.do_
    rw [hv]
    simp only
    rw [if_pos hc, withClient_passed tagsGroup env opts info hl hi h200 hst]
    simp only [hd, List.cons_append]
  obtain ⟨k1, k2⟩ := afterDailyFetch_outcome tagsGroup env opts task extra hv ht hx
  have hpick : ∀ k, pickStarTags tagsGroup env opts k ≠ none := by
    intro k hk
    obtain ⟨star, tags, hs, _⟩ := pickStarTags_some tagsGroup env opts k hv ht
    rw [hs] at hk
    exact absurd hk (by simp)
  rw [hrun]
  refine ⟨k1, ?_, ?_, ?_, ?_, ?_, ?_, ?_, ?_⟩
  · simp only
    rw [k2]
    rw [noFailed_snoc Event.close _ rfl, noFailed_cons (Event.newClient true) _ rfl,
      noFailed_cons (Event.needLogin false) _ rfl,
      noFailed_cons (Event.partnerUserinfo (some info)) _ rfl,
      noFailed_cons (Event.partnerDailyTask (some task)) _ rfl]
  · intro e he
    rcases afterDailyFetch_error tagsGroup env opts task e he with h | h | h
    · exact Or.inl h
    · exact Or.inr h
    · exfalso
      subst h
      have hadf := afterDailyFetch_eq tagsGroup env opts task
      have hdl := dailyLoop_flow tagsGroup env opts task.Id task.Works Cursor.start
      simp only at he
      rw [hadf] at he
      revert he hdl
      have key : ∀ c, (extraPhase tagsGroup env opts task.Id c).2 ≠
          Outcome.error RunError.partnerExtraTask := by
        intro c
        rw [extraPhase_fetched _ _ _ _ _ extra hx]
        have hf := extraLoop_flow tagsGroup env opts task.Id extra (extraStart env c)
        revert hf
        cases (extraLoop tagsGroup env opts task.Id (extraStart env c) extra).2 with
        | next s => simp [Flow.outcome]
        | stop s => simp [Flow.outcome]
        | fail e1 =>
          simp only [Flow.outcome, ne_eq, Outcome.error.injEq]
          rintro ⟨h1 | h1, _⟩ <;> rw [h1] <;> decide
        | panic => simp [Flow.outcome]
      cases (dailyLoop tagsGroup env opts task.Id Cursor.start task.Works).2 with
      | next c => intro he _; exact key c he
      | stop c => intro he _; exact key c he
      | fail e1 =>
        simp only [Outcome.error.injEq]
        rintro rfl ⟨h1, _⟩
        cases h1
      | panic => simp
  · intro he hr
    obtain ⟨⟨c1, hflow⟩, hvis⟩ :=
      dailyLoop_visits tagsGroup env opts task.Id hv ht he task.Works Cursor.start
    obtain ⟨q2, q7⟩ := extraStart_quota env c1
    have hadf := afterDailyFetch_eq tagsGroup env opts task
    rw [hflow] at hadf
    simp only at hadf
    rw [extraPhase_fetched _ _ _ _ _ extra hx] at hadf
    rcases extraLoop_quota tagsGroup env opts task.Id hv ht hr he extra (extraStart env c1)
        (by omega) (by omega) with ⟨s1, a, _, _, f⟩ | ⟨s1, pre, req, a, _, e⟩
    · rw [a] at hadf
      simp only [Flow.finished, Flow.outcome, if_true] at hadf
      refine ⟨_, _, ?_, hvis, Or.inl f⟩
      rw [hadf]
      simp
    · rw [a] at hadf
      simp only [Flow.finished, Flow.outcome, if_true] at hadf
      refine ⟨_, _, ?_, hvis, Or.inr ⟨pre, req, e⟩⟩
      rw [hadf]
      simp
  · have hadf := afterDailyFetch_eq tagsGroup env opts task
    rcases dailyLoop_run tagsGroup env opts task.Id hv ht task.Works Cursor.start with
      ⟨hflow, hnf, hact⟩ | ⟨hflow, pre, req, n, ht1, hpre, hact⟩
    · rw [hflow] at hadf
      simp only at hadf
      rw [extraPhase_fetched _ _ _ _ _ extra hx] at hadf
      have hq := extraStart_quota env
        { rand := Cursor.start.rand + 3 * (task.Works.filter (fun w => !w.Completed)).length,
          evaluate := Cursor.start.evaluate +
            (task.Works.filter (fun w => !w.Completed)).length,
          report := Cursor.start.report }
      have hrunx := extraLoop_run tagsGroup env opts task.Id hv ht extra
        (extraStart env
          { rand := Cursor.start.rand + 3 * (task.Works.filter (fun w => !w.Completed)).length,
            evaluate := Cursor.start.evaluate +
              (task.Works.filter (fun w => !w.Completed)).length,
            report := Cursor.start.report })
        (by have := hq.1; omega) (by have := hq.2; omega)
      have hquota : (extraStart env
          { rand := Cursor.start.rand + 3 * (task.Works.filter (fun w => !w.Completed)).length,
            evaluate := Cursor.start.evaluate +
              (task.Works.filter (fun w => !w.Completed)).length,
            report := Cursor.start.report }).extraNum =
          2 + ((env.rand (3 * (task.Works.filter (fun w => !w.Completed)).length) : Nat)
            : Int) % 6 := by
        simp [extraStart, Cursor.start]
      rw [hquota] at hrunx
      rcases hrunx with ⟨s1, a, b, e, f, g⟩ | ⟨s1, pre, req, n, a, b, e, f, g⟩ |
        ⟨e0, pre, ev, n, a, b, e, f, g, i⟩
      · left
        rw [a] at hadf
        simp only [Flow.finished, Flow.outcome, if_true] at hadf
        refine ⟨_, _, ?_, hnf, f, hact, extraLoop_follows tagsGroup env opts task.Id extra _,
          extraLoop_followed tagsGroup env opts task.Id extra _, Or.inl ⟨g, by omega⟩⟩
        rw [hadf]
        simp
      · left
        rw [a] at hadf
        simp only [Flow.finished, Flow.outcome, if_true] at hadf
        refine ⟨_, _, ?_, hnf, f, hact, extraLoop_follows tagsGroup env opts task.Id extra _,
          extraLoop_followed tagsGroup env opts task.Id extra _,
          Or.inr ⟨n, pre, req, g, b, e⟩⟩
        rw [hadf]
        simp
      · right; right
        rw [a] at hadf
        simp only [Flow.finished, Flow.outcome] at hadf
        refine ⟨_, _, pre, ev, e0, n, ?_, hnf, hact, b, e, f,
          extraLoop_follows tagsGroup env opts task.Id extra _,
          extraLoop_followed tagsGroup env opts task.Id extra _, i, g⟩
        rw [hadf]
        simp
    · right; left
      rw [hflow] at hadf
      simp only at hadf
      refine ⟨_, pre, req, n, ?_, ht1, hpre, hact⟩
      rw [hadf]
      simp
  · obtain ⟨ke, kr, a, b⟩ := afterDailyFetch_answers tagsGroup env opts task
    refine ⟨ke, kr, ?_, ?_⟩
    · rw [← a]
      simp [evaluateAnswers]
    · rw [← b]
      simp [reportAnswers]
  · intro c w rest hw he
    rcases dailyStep_shape tagsGroup env opts task.Id c w with
      ⟨hw1, _⟩ | ⟨_, hp, _⟩ | ⟨_, _, d, req, _, h⟩ | ⟨_, d, req, code, _, he1, _⟩
    · rw [hw] at hw1; exact absurd hw1 (by simp)
    · exact absurd hp (hpick _)
    · exact ⟨d, req, dailyLoop_cons_fail rest h⟩
    · rw [he] at he1; exact absurd he1 (by simp)
  · intro s w rest hw hr
    rcases extraStep_shape tagsGroup env opts task.Id s w with
      ⟨hw1, _⟩ | ⟨_, hp, _⟩ | ⟨_, _, d, req, _, h⟩ | ⟨_, d, req, code, _, hr1, _, _⟩ |
      ⟨_, hr1, _⟩ | ⟨_, hr1, _⟩
    · rw [hw] at hw1; exact absurd hw1 (by simp)
    · exact absurd hp (hpick _)
    · exact ⟨d, req, extraLoop_cons_fail rest h⟩
    · rw [hr] at hr1; exact absurd hr1 (by simp)
    · rw [hr] at hr1; exact absurd hr1 (by simp)
    · rw [hr] at hr1; exact absurd hr1 (by simp)
  · intro s w rest hw hr he
    rcases extraStep_shape tagsGroup env opts task.Id s w with
      ⟨hw1, _⟩ | ⟨_, hp, _⟩ | ⟨_, hr1, _⟩ | ⟨_, d, req, code, _, hr1, hne, _⟩ |
      ⟨_, _, _, d, req, ereq, _, _, h⟩ | ⟨_, _, d, req, ereq, ecode, _, _, he1, _⟩
    · rw [hw] at hw1; exact absurd hw1 (by simp)
    · exact absurd hp (hpick _)
    · rw [hr] at hr1; exact absurd hr1 (by simp)
    · rw [hr] at hr1
      simp only [Option.some.injEq] at hr1
      exact absurd hr1.symm hne
    · exact ⟨d, req, ereq, extraLoop_cons_fail rest h⟩
    · rw [he] at he1; exact absurd he1 (by simp)

theorem response_codes_are_contained_witness :
    (∃ t1 t2,
      Partner.execute sampleTagsGroup
          (sampleRemote [sampleWork 11 false, sampleWork 12 false] [sampleWork 21 false]
            (fun _ => some 500) (fun _ => some 404)) { Star := [3, 4] } =
        ([Event.newClient true, Event.needLogin false,
          Event.partnerUserinfo (some { Code := 200, Status := "NORMAL" }),
          Event.partnerDailyTask
            (some { Id := 1, Works := [sampleWork 11 false, sampleWork 12 false] })] ++ t1 ++
          Event.partnerExtraTask (some [sampleWork 21 false]) :: t2 ++
          [Event.tokenRefresh (some 200), Event.close], Outcome.ok) ∧
      t1.map Event.action =
        [Action.delay, Action.evaluate 11, Action.delay, Action.evaluate 12]) ∧
    ∃ d req,
      dailyLoop sampleTagsGroup
          (sampleRemote [sampleWork 11 false, sampleWork 12 false] [sampleWork 21 false]
            alwaysError always200) { Star := [3, 4] } 1 Cursor.start
          [sampleWork 11 false, sampleWork 12 false] =
        ([Event.sleep d, Event.partnerEvaluate req none],
          Flow.fail RunError.partnerEvaluate) :=
  ⟨match ((response_codes_are_contained sampleTagsGroup
      (sampleRemote [sampleWork 11 false, sampleWork 12 false] [sampleWork 21 false]
        (fun _ => some 500) (fun _ => some 404)) { Star := [3, 4] }).2
      { Code := 200, Status := "NORMAL" }
      { Id := 1, Works := [sampleWork 11 false, sampleWork 12 false] } [sampleWork 21 false]
      (by decide) sampleTags_available rfl rfl rfl rfl (by decide) rfl rfl).2.2.2.1
      (fun _ => by simp [sampleRemote]) (fun _ => by simp [sampleRemote]) with
    | ⟨t1, t2, hrun, hvis, _⟩ => ⟨t1, t2, hrun, hvis⟩,
    ((response_codes_are_contained sampleTagsGroup
      (sampleRemote [sampleWork 11 false, sampleWork 12 false] [sampleWork 21 false]
        alwaysError always200) { Star := [3, 4] }).2
      { Code := 200, Status := "NORMAL" }
      { Id := 1, Works := [sampleWork 11 false, sampleWork 12 false] } [sampleWork 21 false]
      (by decide) sampleTags_available rfl rfl rfl rfl (by decide) rfl rfl).2.2.2.2.2.2.1
      Cursor.start (sampleWork 11 false) [sampleWork 12 false] rfl rfl⟩

/-- C8: idempotence on a finished snapshot. When the gate has passed, both batches
are fetched and every item of both has `completed = true`, `Partner.do` issues no
pacing delay, no report call and no evaluate call and returns no error, whatever
the random draws (the quota among them) and whatever the token refresh answers. -/
theorem finished_snapshot_is_noop (tagsGroup : Int → List String) (env : Remote)
    (opts : PartnerOpts) (info : PartnerUserinfoResp) (task : PartnerTaskData)
    (extra : List PartnerWork)
    (hc : env.newClient = true) (hl : env.needLogin = false)
    (hi : env.partnerUserinfo = some info) (h200 : info.Code = 200)
    (hst : info.Status ≠ "ELIMINATED") (hd : env.partnerDailyTask = some task)
    (hx : env.partnerExtraTask = some extra)
    (hdall : ∀ w ∈ task.Works, w.Completed = true) (hxall : ∀ w ∈ extra, w.Completed = true) :
    Partner.do_ tagsGroup env opts =
      ([Event.newClient true, Event.needLogin false, Event.partnerUserinfo (some info),
        Event.partnerDailyTask (some task), Event.partnerExtraTask (some extra),
        Event.tokenRefresh env.tokenRefresh, Event.close], Outcome.ok) := by
  unfold Partner.do_
  rw [if_pos hc, withClient_passed tagsGroup env opts info hl hi h200 hst]
  simp only [hd]
  rw [afterDailyFetch_eq, dailyLoop_all_completed _ _ _ _ _ _ hdall]
  simp only
  rw [extraPhase_fetched _ _ _ _ _ extra hx, extraLoop_all_completed _ _ _ _ _ _ hxall]
  simp [Flow.finished, Flow.outcome]

theorem finished_snapshot_is_noop_witness :
    Partner.do_ sampleTagsGroup
        (sampleRemote [sampleWork 11 true, sampleWork 12 true] [sampleWork 21 true]
          alwaysError alwaysError) { Star := [3, 4] } =
      ([Event.newClient true, Event.needLogin false,
        Event.partnerUserinfo (some { Code := 200, Status := "NORMAL" }),
        Event.partnerDailyTask
          (some { Id := 1, Works := [sampleWork 11 true, sampleWork 12 true] }),
        Event.partnerExtraTask (some [sampleWork 21 true]),
        Event.tokenRefresh (some 200), Event.close], Outcome.ok) :=
  finished_snapshot_is_noop sampleTagsGroup
    (sampleRemote [sampleWork 11 true, sampleWork 12 true] [sampleWork 21 true]
      alwaysError alwaysError) { Star := [3, 4] } { Code := 200, Status := "NORMAL" }
    { Id := 1, Works := [sampleWork 11 true, sampleWork 12 true] } [sampleWork 21 true]
    rfl rfl rfl rfl (by decide) rfl rfl (by decide) (by decide)

/-- C9: the pacing delay `15 + rand.Int31n(10)`. For every draw the delay is a whole
number of seconds from 15 to 24, every value from 15 to 24 is the delay of some
draw, and no draw gives a delay of 25 seconds. -/
theorem pacingDelay_range :
    (∀ raw, ∃ d, pacingDelay raw = some d ∧ 15 ≤ d ∧ d ≤ 24) ∧
    (∀ i : Fin 10, ∃ raw, pacingDelay raw = some (15 + (i.val : Int))) ∧
    (∀ raw, pacingDelay raw ≠ some 25) := by
  refine ⟨fun raw => ?_, fun i => ?_, fun raw => ?_⟩
  · exact ⟨_, pacingDelay_eq raw, by omega, by omega⟩
  · refine ⟨i.val, ?_⟩
    rw [pacingDelay_eq]
    have := i.isLt
    congr 2
    omega
  · rw [pacingDelay_eq]
    simp only [ne_eq, Option.some.injEq]
    omega

/-- C10: fail-fast and short-circuit in `Partner.execute` / `Partner.do`. A
configuration that `validate` rejects makes `execute` return that error with an
empty trace (no client is created, no call is made). When a fatal step fails
(not logged in; status code 703, another code than 200, or status "ELIMINATED";
daily fetch error; extra fetch error) the failing call is the last call of the
run, followed only by the deferred close of the client: no batch fetch, delay,
report, evaluate or token refresh comes after it. -/
theorem fail_fast (tagsGroup : Int → List String) (env : Remote) (opts : PartnerOpts) :
    (∀ e, Partner.validate opts = some e →
      Partner.execute tagsGroup env opts = ([], Outcome.error e)) ∧
    (env.newClient = true → env.needLogin = true →
      Partner.do_ tagsGroup env opts =
        ([Event.newClient true, Event.needLogin true, Event.close],
          Outcome.error RunError.needLogin)) ∧
    (∀ info, env.newClient = true → env.needLogin = false →
      env.partnerUserinfo = some info →
      ¬ (info.Code = 200 ∧ info.Status ≠ "ELIMINATED") →
      (Partner.do_ tagsGroup env opts).1 =
        [Event.newClient true, Event.needLogin false, Event.partnerUserinfo (some info),
          Event.close] ∧
      ∃ e, (Partner.do_ tagsGroup env opts).2 = Outcome.error e) ∧
    (∀ info, env.newClient = true → env.needLogin = false →
      env.partnerUserinfo = some info → info.Code = 200 → info.Status ≠ "ELIMINATED" →
      env.partnerDailyTask = none →
      Partner.do_ tagsGroup env opts =
        ([Event.newClient true, Event.needLogin false, Event.partnerUserinfo (some info),
          Event.partnerDailyTask none, Event.close],
          Outcome.error RunError.partnerDailyTask)) ∧
    (∀ info task c, env.newClient = true → env.needLogin = false →
      env.partnerUserinfo = some info → info.Code = 200 → info.Status ≠ "ELIMINATED" →
      env.partnerDailyTask = some task →
      (dailyLoop tagsGroup env opts task.Id Cursor.start task.Works).2 = Flow.next c →
      env.partnerExtraTask = none →
      Partner.do_ tagsGroup env opts =
        (Event.newClient true :: Event.needLogin false :: Event.partnerUserinfo (some info) ::
          Event.partnerDailyTask (some task) ::
          (dailyLoop tagsGroup env opts task.Id Cursor.start task.Works).1 ++
          [Event.partnerExtraTask none, Event.close],
          Outcome.error RunError.partnerExtraTask)) := by
  refine ⟨?_, ?_, ?_, ?_, ?_⟩
  · intro e he
    unfold Partner.execute
    rw [he]
  · intro hc hl
    unfold Partner.do_ withClient
    simp [hc, hl]
  · intro info hc hl hi hno
    unfold Partner.do_
    rw [if_pos hc, withClient_stopped tagsGroup env opts info hl hi hno]
    refine ⟨rfl, ?_⟩
    simp only
    split
    · exact ⟨_, rfl⟩
    · split
      · exact ⟨_, rfl⟩
      · exact ⟨_, rfl⟩
  · intro info hc hl hi h200 hst hd
    unfold Partner.do_
    rw [if_pos hc, withClient_passed tagsGroup env opts info hl hi h200 hst]
    simp [hd]
  · intro info task c hc hl hi h200 hst hd hloop hx
    unfold Partner.do_
    rw [if_pos hc, withClient_passed tagsGroup env opts info hl hi h200 hst]
    simp only [hd]
    rw [afterDailyFetch_eq]
    simp only [hloop]
    rw [extraPhase_fetch_error _ _ _ _ _ hx]
    simp

theorem fail_fast_witness :
    Partner.execute sampleTagsGroup (sampleRemote [] [] always200 always200) { Star := [] } =
      ([], Outcome.error RunError.starRange) ∧
    Partner.do_ sampleTagsGroup
        { sampleRemote [sampleWork 11 false] [] always200 always200 with needLogin := true }
        { Star := [3, 4] } =
      ([Event.newClient true, Event.needLogin true, Event.close],
        Outcome.error RunError.needLogin) ∧
    Partner.do_ sampleTagsGroup
        { sampleRemote [sampleWork 11 false] [] always200 always200 with
          partnerExtraTask := none }
        { Star := [3, 4] } =
      (Event.newClient true :: Event.needLogin false ::
        Event.partnerUserinfo (some { Code := 200, Status := "NORMAL" }) ::
        Event.partnerDailyTask (some { Id := 1, Works := [sampleWork 11 false] }) ::
        (dailyLoop sampleTagsGroup
          { sampleRemote [sampleWork 11 false] [] always200 always200 with
            partnerExtraTask := none }
          { Star := [3, 4] } 1 Cursor.start [sampleWork 11 false]).1 ++
        [Event.partnerExtraTask none, Event.close],
        Outcome.error RunError.partnerExtraTask) :=
  ⟨(fail_fast sampleTagsGroup (sampleRemote [] [] always200 always200) { Star := [] }).1
      RunError.starRange (by decide),
    (fail_fast sampleTagsGroup
      { sampleRemote [sampleWork 11 false] [] always200 always200 with needLogin := true }
      { Star := [3, 4] }).2.1 rfl rfl,
    (fail_fast sampleTagsGroup
      { sampleRemote [sampleWork 11 false] [] always200 always200 with
        partnerExtraTask := none }
      { Star := [3, 4] }).2.2.2.2 { Code := 200, Status := "NORMAL" }
      { Id := 1, Works := [sampleWork 11 false] }
      { rand := 3, evaluate := 1, report := 0 } rfl rfl rfl rfl (by decide) rfl
      (by decide) rfl⟩

end Ncmctl
